import Mathlib

/-!
# Verification of the XMind → Draw.io converter

Shallow embedding of `converter.py` (classes `XMindParser`, `DrawioGenerator`,
`XMindToDrawioConverter`) and proofs about the claims of the specification.

Generated cell ids are `str(counter)` in the source; we model them as
`Nat.repr`.  The development starts with the fact that this rendering is
injective, which the id-uniqueness claims need.
-/

namespace XmindToDrawio

/-- One decoding step: digits are accumulated most-significant first. -/
def decodeStep (a : Nat) (c : Char) : Nat := 10 * a + (c.toNat - 48)

theorem digitChar_toNat : ∀ k, k < 10 → (Nat.digitChar k).toNat = 48 + k := by
  decide

theorem toDigitsCore_foldl (fuel : Nat) :
    ∀ n ds, n < fuel →
      (Nat.toDigitsCore 10 fuel n ds).foldl decodeStep 0 = ds.foldl decodeStep n := by
  induction fuel with
  | zero => intro n ds h; omega
  | succ f ih =>
    intro n ds h
    rw [Nat.toDigitsCore]
    by_cases h0 : n / 10 = 0
    · simp only [h0, if_pos rfl]
      have hn : n < 10 := by omega
      have hch : (Nat.digitChar (n % 10)).toNat = 48 + n % 10 :=
        digitChar_toNat (n % 10) (Nat.mod_lt n (by omega))
      have : decodeStep 0 (Nat.digitChar (n % 10)) = n := by
        simp [decodeStep, hch]; omega
      simp [List.foldl, this]
    · simp only [if_neg h0]
      have hlt : n / 10 < f := by
        have h1 : n / 10 < n := Nat.div_lt_self (by omega) (by omega)
        omega
      rw [ih (n / 10) (Nat.digitChar (n % 10) :: ds) hlt]
      have hch : (Nat.digitChar (n % 10)).toNat = 48 + n % 10 :=
        digitChar_toNat (n % 10) (Nat.mod_lt n (by omega))
      have : decodeStep (n / 10) (Nat.digitChar (n % 10)) = n := by
        simp [decodeStep, hch]
        omega
      simp [List.foldl, this]

theorem decode_toDigits (n : Nat) :
    (Nat.toDigits 10 n).foldl decodeStep 0 = n := by
  rw [Nat.toDigits]
  rw [toDigitsCore_foldl (n + 1) n [] (Nat.lt_succ_self n)]
  rfl

theorem Nat_repr_injective : Function.Injective Nat.repr := by
  intro m n h
  have hd : Nat.toDigits 10 m = Nat.toDigits 10 n := by
    have hdata := congrArg String.data h
    simpa [Nat.repr, List.asString] using hdata
  have := congrArg (List.foldl decodeStep 0) hd
  rwa [decode_toDigits, decode_toDigits] at this

/-!
## Constants of `DrawioGenerator.__init__` and the style strings
-/

def x_spacing : Nat := 250
def min_y_spacing : Nat := 120
def box_width : Nat := 120
def box_height : Nat := 60
def callout_width : Nat := 200
def callout_height : Nat := 60
def callout_offset_x : Int := -50
def callout_offset_y : Int := -80
def callout_spacing : Nat := 70

/-- `DrawioGenerator._get_style`: vertex style by hierarchy level. -/
def get_style (level : Nat) : String :=
  if level = 0 then
    "rounded=1;whiteSpace=wrap;html=1;fillColor=#dae8fc;strokeColor=#6c8ebf;fontStyle=1;fontSize=14;"
  else if level = 1 then
    "rounded=1;whiteSpace=wrap;html=1;fillColor=#dae8fc;strokeColor=#6c8ebf;fontSize=12;"
  else
    "rounded=1;whiteSpace=wrap;html=1;fillColor=#dae8fc;strokeColor=#6c8ebf;fontSize=11;"

/-- Sticky-note style used by `_convert_json_callout` for annotation vertices. -/
def callout_style : String :=
  "shape=note;whiteSpace=wrap;html=1;fillColor=#fff2cc;strokeColor=#d6b656;fontSize=9;align=left;verticalAlign=top;spacing=8;spacingLeft=12;spacingRight=12;spacingTop=8;backgroundOutline=1;size=12;"

/-- Edge style of `_create_connector` (topic-to-child connectors). -/
def connector_style : String :=
  "edgeStyle=entityRelationEdgeStyle;rounded=1;orthogonalLoop=1;jettySize=auto;html=1;curved=1;strokeColor=#6c8ebf;strokeWidth=1;"

/-- Dashed edge style used by `_convert_json_callout` for topic-to-callout links. -/
def dashed_connector_style : String :=
  "edgeStyle=none;rounded=1;orthogonalLoop=1;jettySize=auto;html=1;dashed=1;strokeColor=#d6b656;strokeWidth=1;"

/-!
## Output cells

An `mxGeometry` child element: vertex geometries carry the box, edge
geometries carry `relative="1"`; both carry `as="geometry"`.  Coordinates are
Python floats; every value the converter produces is a dyadic rational, so we
model them exactly as rationals.
-/

inductive MxGeometry where
  | box (x y : Rat) (width height : Nat)
  | relative
deriving DecidableEq, Repr

/-- One `mxCell` element of the output, with the attributes the converter sets
(absent attributes are `none` / `false`). -/
structure MxCell where
  id : String
  value : Option String := none
  style : Option String := none
  vertex : Bool := false
  edge : Bool := false
  parent : Option String := none
  source : Option String := none
  target : Option String := none
  geometry : Option MxGeometry := none
deriving DecidableEq, Repr

/-!
## The JSON topic tree

Normalized view of a topic parsed from `content.json`: `title` is the optional
`'title'` key; `attached` and `callout` are the `children.attached` and
`children.callout` lists (an absent `children` dict or list key behaves
exactly like the empty list the code defaults to, so both are modelled as the
plain list).
-/

inductive JsonTopic where
  | mk (title : Option String) (attached : List JsonTopic) (callout : List JsonTopic)

def JsonTopic.title : JsonTopic → Option String
  | .mk t _ _ => t

def JsonTopic.attached : JsonTopic → List JsonTopic
  | .mk _ a _ => a

def JsonTopic.callout : JsonTopic → List JsonTopic
  | .mk _ _ c => c

/-!
## `DrawioGenerator._calculate_subtree_height`
-/

mutual

def calculate_subtree_height : JsonTopic → Nat
  | .mk _ attached_topics callout_topics =>
    -- base height for this node, plus extra height for callouts
    let base_height := min_y_spacing +
      (if callout_topics.isEmpty then 0 else callout_topics.length * callout_spacing)
    if attached_topics.isEmpty then base_height
    else Nat.max (sum_subtree_heights attached_topics) base_height

/-- `sum(self._calculate_subtree_height(child) for child in attached_topics)`. -/
def sum_subtree_heights : List JsonTopic → Nat
  | [] => 0
  | t :: ts => calculate_subtree_height t + sum_subtree_heights ts

end

/-!
## Emission: `_create_connector`, `_convert_json_callout`, `_convert_json_topic`

The Python methods mutate `self.cell_id` and append cells to the shared
`root` element; we thread the counter explicitly and return the appended
cells in order.  Generated ids are `str(self.cell_id)`, i.e. `Nat.repr`.
-/

/-- `DrawioGenerator._create_connector`: one curved edge cell, counter + 1. -/
def create_connector (source_id target_id : String) (cell_id : Nat) : MxCell × Nat :=
  ({ id := Nat.repr cell_id, value := some "", style := some connector_style,
     edge := true, parent := some "1",
     source := some source_id, target := some target_id,
     geometry := some .relative }, cell_id + 1)

/-- `DrawioGenerator._convert_json_callout`: a note vertex plus a dashed
connector from the owning topic; callouts are never recursed into. -/
def convert_json_callout (callout : JsonTopic) (parent_id : String) (x y : Rat)
    (cell_id : Nat) : List MxCell × Nat × String :=
  let title := callout.title.getD ""
  let current_id := Nat.repr cell_id
  let note : MxCell :=
    { id := current_id, value := some title, style := some callout_style,
      vertex := true, parent := some "1",
      geometry := some (.box x y callout_width callout_height) }
  let connector_id := Nat.repr (cell_id + 1)
  let connector : MxCell :=
    { id := connector_id, value := some "", style := some dashed_connector_style,
      edge := true, parent := some "1",
      source := some parent_id, target := some current_id,
      geometry := some .relative }
  ([note, connector], cell_id + 2, current_id)

/-- The `for idx, callout in enumerate(callout_topics)` loop of
`_convert_json_topic`, carrying the 0-based index. -/
def convert_json_callouts (callout_topics : List JsonTopic) (current_id : String)
    (x y : Rat) (idx : Nat) (cell_id : Nat) : List MxCell × Nat :=
  match callout_topics with
  | [] => ([], cell_id)
  | callout :: rest =>
    let callout_x := x + (callout_offset_x : Rat)
    let callout_y := y + (callout_offset_y : Rat) - ((idx * callout_spacing : Nat) : Rat)
    let (cells, cell_id, _callout_id) :=
      convert_json_callout callout current_id callout_x callout_y cell_id
    let (rest_cells, cell_id) :=
      convert_json_callouts rest current_id x y (idx + 1) cell_id
    (cells ++ rest_cells, cell_id)

mutual

/-- `DrawioGenerator._convert_json_topic`.  Returns the cells appended for
this subtree (in append order), the updated counter and `current_id`.  The
`parent_id` parameter is present in the source but unused there too. -/
def convert_json_topic (topic : JsonTopic) (_parent_id : String) (x y : Rat)
    (level : Nat) (cell_id : Nat) : List MxCell × Nat × String :=
  match topic with
  | .mk title_field attached_topics callout_topics =>
    let title := title_field.getD "Topic"
    let current_id := Nat.repr cell_id
    let cell_id := cell_id + 1
    let topic_cell : MxCell :=
      { id := current_id, value := some title, style := some (get_style level),
        vertex := true, parent := some "1",
        geometry := some (.box x y box_width box_height) }
    let (child_cells, cell_id) :=
      if attached_topics.isEmpty then ([], cell_id)
      else
        let total_height := sum_subtree_heights attached_topics
        let current_y : Rat := y - (total_height : Rat) / 2
        convert_json_children attached_topics current_id x current_y level cell_id
    let (callout_cells, cell_id) :=
      convert_json_callouts callout_topics current_id x y 0 cell_id
    (topic_cell :: (child_cells ++ callout_cells), cell_id, current_id)

/-- The `for child_topic in attached_topics` loop of `_convert_json_topic`:
convert the child subtree, then append the connector, then advance the
running `current_y` cursor by the child's subtree height. -/
def convert_json_children (attached_topics : List JsonTopic) (current_id : String)
    (x current_y : Rat) (level : Nat) (cell_id : Nat) : List MxCell × Nat :=
  match attached_topics with
  | [] => ([], cell_id)
  | child_topic :: rest =>
    let child_height := calculate_subtree_height child_topic
    let child_x := x + (x_spacing : Rat)
    let child_y := current_y + (child_height : Rat) / 2
    let (cells, cell_id, child_id) :=
      convert_json_topic child_topic current_id child_x child_y (level + 1) cell_id
    let (connector, cell_id) := create_connector current_id child_id cell_id
    let (rest_cells, cell_id) :=
      convert_json_children rest current_id x (current_y + (child_height : Rat)) level cell_id
    (cells ++ connector :: rest_cells, cell_id)

end

/-!
## The XML topic tree

View of a `<topic>` element parsed from `content.xml` (namespace `xmap`):
`title_elem` is `some txt` when a `<title>` child element exists, `txt` being
its text (`none` models a `<title/>` with no text); `children` is `some cs`
when a `<children>` element exists, `cs` listing the `<topics>` containers,
each with its list of `<topic>` elements.  The legacy schema has no callout
concept.
-/

inductive XmlTopic where
  | mk (title_elem : Option (Option String)) (children : Option (List (List XmlTopic)))

/-- The `child_topics` list both XML walkers build: every `topic` element of
every `topics` container under the `children` element, in document order. -/
def xml_child_topics : XmlTopic → List XmlTopic
  | .mk _ none => []
  | .mk _ (some containers) => containers.flatten

theorem sizeOf_append_list {α : Type} [SizeOf α] (l₁ l₂ : List α) :
    sizeOf (l₁ ++ l₂) + 1 = sizeOf l₁ + sizeOf l₂ := by
  induction l₁ with
  | nil => simp [List.nil_append]; omega
  | cons a l ih => simp [List.cons_append]; omega

theorem sizeOf_flatten_le {α : Type} [SizeOf α] (l : List (List α)) :
    sizeOf l.flatten ≤ sizeOf l := by
  induction l with
  | nil => simp [List.flatten]
  | cons c cs ih =>
    have h := sizeOf_append_list c cs.flatten
    simp only [List.flatten_cons]
    simp only [List.cons.sizeOf_spec]
    omega

/-!
## `DrawioGenerator._calculate_xml_subtree_height`
-/

mutual

def calculate_xml_subtree_height : XmlTopic → Nat
  | .mk _ none => min_y_spacing
  | .mk _ (some containers) =>
    let child_topics := containers.flatten
    if child_topics.isEmpty then min_y_spacing
    else Nat.max (sum_xml_subtree_heights child_topics) min_y_spacing
termination_by t => sizeOf t
decreasing_by
  have := sizeOf_flatten_le containers
  simp; omega

/-- `sum(self._calculate_xml_subtree_height(child, ...) for child in child_topics)`. -/
def sum_xml_subtree_heights : List XmlTopic → Nat
  | [] => 0
  | t :: ts => calculate_xml_subtree_height t + sum_xml_subtree_heights ts
termination_by ts => sizeOf ts
decreasing_by all_goals (simp <;> omega)

end

/-!
## `DrawioGenerator._convert_xml_topic`

Same two-phase walk as the JSON converter, minus callouts: the method only
emits the topic vertex and the child blocks.
-/

mutual

def convert_xml_topic (topic : XmlTopic) (_parent_id : String) (x y : Rat)
    (level : Nat) (cell_id : Nat) : List MxCell × Nat × String :=
  match topic with
  | .mk title_elem children =>
    let title := match title_elem with
      | some (some s) => if s = "" then "Topic" else s
      | _ => "Topic"
    let current_id := Nat.repr cell_id
    let cell_id := cell_id + 1
    let topic_cell : MxCell :=
      { id := current_id, value := some title, style := some (get_style level),
        vertex := true, parent := some "1",
        geometry := some (.box x y box_width box_height) }
    let (child_cells, cell_id) :=
      match children with
      | none => ([], cell_id)
      | some containers =>
        let child_topics := containers.flatten
        if child_topics.isEmpty then ([], cell_id)
        else
          let total_height := sum_xml_subtree_heights child_topics
          let current_y : Rat := y - (total_height : Rat) / 2
          convert_xml_children child_topics current_id x current_y level cell_id
    (topic_cell :: child_cells, cell_id, current_id)
termination_by sizeOf topic
decreasing_by
  have := sizeOf_flatten_le containers
  simp; omega

/-- The `for child_topic in child_topics` loop of `_convert_xml_topic`. -/
def convert_xml_children (child_topics : List XmlTopic) (current_id : String)
    (x current_y : Rat) (level : Nat) (cell_id : Nat) : List MxCell × Nat :=
  match child_topics with
  | [] => ([], cell_id)
  | child_topic :: rest =>
    let child_height := calculate_xml_subtree_height child_topic
    let child_x := x + (x_spacing : Rat)
    let child_y := current_y + (child_height : Rat) / 2
    let (cells, cell_id, child_id) :=
      convert_xml_topic child_topic current_id child_x child_y (level + 1) cell_id
    let (connector, cell_id) := create_connector current_id child_id cell_id
    let (rest_cells, cell_id) :=
      convert_xml_children rest current_id x (current_y + (child_height : Rat)) level cell_id
    (cells ++ connector :: rest_cells, cell_id)
termination_by sizeOf child_topics
decreasing_by all_goals (simp <;> omega)

end

/-!
## `DrawioGenerator.create_drawio_xml`

The fixed wrapper (`mxfile` → `diagram` → `mxGraphModel` → `root`) carries
only constant attributes; the claims concern the cells of the `root` element,
so the document is modelled as that cell list (appended in emission order).
-/

/-- The root topic handed to the generator, tagged with the encoding
(`parser.is_json_format`) that selects the conversion branch. -/
inductive RootTopic where
  | json (t : JsonTopic)
  | xml (t : XmlTopic)

/-- `ET.SubElement(root, 'mxCell', id='0')`. -/
def default_cell_0 : MxCell := { id := "0" }

/-- `ET.SubElement(root, 'mxCell', id='1', parent='0')`. -/
def default_cell_1 : MxCell := { id := "1", parent := some "0" }

/-- Cells of the `root` element: the two default cells, then the converted
topic tree (started at `parent_id='1'`, anchor `(400, 300)`, level 0, counter
2).  `root_topic` may be `None` in the source, in which case nothing further
is emitted. -/
def create_drawio_xml (root_topic : Option RootTopic) : List MxCell :=
  [default_cell_0, default_cell_1] ++
    match root_topic with
    | none => []
    | some (.json t) => (convert_json_topic t "1" 400 300 0 2).1
    | some (.xml t) => (convert_xml_topic t "1" 400 300 0 2).1

/-!
## `XMindParser`

The zip container is modelled by which of the two payload entries it has and
by the (library) outcome of reading-and-parsing each: `json.loads` /
`ET.fromstring` either produce a document or raise, and an I/O failure while
opening the archive raises as well.  `parse` prints an error message only in
the exception handler and returns `None` in every failure case.
-/

/-- A parsed `content.json`: the sheet list, or some other JSON value (the
`isinstance(root, list)` check in `get_root_topic` fails on it). -/
inductive JsonDoc where
  | sheets (l : List (Option JsonTopic))
  | nonList

/-- A parsed `content.xml`: the first descendant `sheet` element, if any, and
that sheet's direct `topic` child, if any. -/
structure XmlDoc where
  sheet_topic : Option (Option XmlTopic)

/-- The untyped value `XMindParser.parse` returns on success. -/
inductive RawDoc where
  | json (d : JsonDoc)
  | xml (d : XmlDoc)

/-- The zip archive at `xmind_path`, as `parse` observes it. -/
structure Archive where
  /-- cause of the exception raised opening or reading the archive, if any -/
  io_error : Option String
  has_json_entry : Bool
  /-- outcome of `json.loads` on the `content.json` bytes -/
  json_content : Except String JsonDoc
  has_xml_entry : Bool
  /-- outcome of `ET.fromstring` on the `content.xml` bytes -/
  xml_content : Except String XmlDoc

/-- The observable outcome of `XMindParser.parse`: returned value, the
`is_json_format` flag it leaves behind, and the printed error messages. -/
structure ParseOutcome where
  result : Option RawDoc
  is_json_format : Bool
  messages : List String

/-- `print(f"Error parsing ...")` in the `except` handler. -/
def error_message (xmind_path cause : String) : String :=
  "Error parsing " ++ xmind_path ++ ": " ++ cause

/-- `XMindParser.parse`: try `content.json`, fall back to `content.xml`,
fall through to `None` when neither entry exists; any exception is caught,
reported with its cause, and also yields `None`. -/
def parse (a : Archive) (xmind_path : String) : ParseOutcome :=
  match a.io_error with
  | some e => { result := none, is_json_format := false,
                messages := [error_message xmind_path e] }
  | none =>
    if a.has_json_entry then
      match a.json_content with
      | .ok d => { result := some (.json d), is_json_format := true, messages := [] }
      | .error e => { result := none, is_json_format := true,
                      messages := [error_message xmind_path e] }
    else if a.has_xml_entry then
      match a.xml_content with
      | .ok d => { result := some (.xml d), is_json_format := false, messages := [] }
      | .error e => { result := none, is_json_format := false,
                      messages := [error_message xmind_path e] }
    else
      { result := none, is_json_format := false, messages := [] }

/-- `XMindParser.get_root_topic` (the result tagged with the encoding the
parser recorded, which is what `convert_file` passes on to the generator). -/
def get_root_topic : RawDoc → Option RootTopic
  | .json (.sheets (first_sheet :: _)) => first_sheet.map .json
  | .json (.sheets []) => none
  | .json .nonList => none
  | .xml d =>
    match d.sheet_topic with
    | some (some t) => some (.xml t)
    | some none => none
    | none => none

/-!
## `XMindToDrawioConverter.convert_file`

Parse, locate the root topic, build the whole document, and only then write
it.  Both failure paths return before any output is produced, so the model
returns the written document, or `none` when nothing is written.
-/

def convert_file (a : Archive) (xmind_path : String) : Option (List MxCell) :=
  let outcome := parse a xmind_path
  match outcome.result with
  | none => none
  | some root =>
    match get_root_topic root with
    | none => none
    | some root_topic => some (create_drawio_xml (some root_topic))

/-!
## Induction principles

The converters recurse only through `attached` children (JSON) resp. the
flattened `topics` containers (XML); callouts are never recursed into.
-/

theorem json_topic_rec_att (P : JsonTopic → Prop)
    (h : ∀ title att call, (∀ c ∈ att, P c) → P (.mk title att call)) :
    ∀ t, P t
  | .mk title att call => h title att call (fun c hc => json_topic_rec_att P h c)
termination_by t => sizeOf t
decreasing_by
  have := List.sizeOf_lt_of_mem hc
  simp; omega

theorem xml_topic_rec_att (P : XmlTopic → Prop)
    (h : ∀ title children, (∀ c ∈ xml_child_topics (.mk title children), P c) →
      P (.mk title children)) :
    ∀ t, P t
  | .mk title children => h title children (fun c hc => xml_topic_rec_att P h c)
termination_by t => sizeOf t
decreasing_by
  have h1 := List.sizeOf_lt_of_mem hc
  cases children with
  | none => simp [xml_child_topics] at hc
  | some containers =>
    have h2 := sizeOf_flatten_le containers
    simp [xml_child_topics] at h1
    simp; omega

/-!
## Id allocation bookkeeping

`IdsFrom cid (cells, cid')` says: the block `cells` carries exactly the ids
`cid, cid+1, …, cid'-1` (rendered with `Nat.repr`) in emission order, and the
counter moved from `cid` to `cid'`.
-/

def IdsFrom (cid : Nat) (p : List MxCell × Nat) : Prop :=
  p.2 = cid + p.1.length ∧
  p.1.map MxCell.id = (List.range' cid p.1.length).map Nat.repr

theorem IdsFrom.nil (cid : Nat) : IdsFrom cid ([], cid) := ⟨rfl, rfl⟩

theorem IdsFrom.cons {cid c2 : Nat} {c0 : MxCell} {l : List MxCell}
    (hid : c0.id = Nat.repr cid) (h : IdsFrom (cid + 1) (l, c2)) :
    IdsFrom cid (c0 :: l, c2) := by
  obtain ⟨h1, h2⟩ := h
  constructor
  · simp only [List.length_cons]
    simp at h1; omega
  · simp only [List.map_cons, List.length_cons, List.range'_succ, hid]
    simpa using h2

theorem IdsFrom.append {cid c1 c2 : Nat} {l1 l2 : List MxCell}
    (h1 : IdsFrom cid (l1, c1)) (h2 : IdsFrom c1 (l2, c2)) :
    IdsFrom cid (l1 ++ l2, c2) := by
  obtain ⟨e1, m1⟩ := h1
  obtain ⟨e2, m2⟩ := h2
  simp only [IdsFrom] at *
  constructor
  · simp [List.length_append]; omega
  · have hr := List.range'_append cid l1.length l2.length 1
    simp only [one_mul] at hr
    simp only [List.map_append, List.length_append]
    rw [m1, m2, e1, ← List.map_append, hr, Nat.add_comm l2.length l1.length]

theorem IdsFrom.append2 {cid : Nat} {p q : List MxCell × Nat}
    (h1 : IdsFrom cid p) (h2 : IdsFrom p.2 q) : IdsFrom cid (p.1 ++ q.1, q.2) :=
  IdsFrom.append h1 h2

/-!
## Unfolding equations in projection form

Restatements of the converter equations with the destructuring `let`s
replaced by explicit projections, convenient for rewriting.
-/

theorem convert_json_topic_def (title : Option String) (att call : List JsonTopic)
    (pid : String) (x y : Rat) (level cid : Nat) :
    convert_json_topic (.mk title att call) pid x y level cid =
      (let cp := if att.isEmpty then (([] : List MxCell), cid + 1)
        else convert_json_children att (Nat.repr cid) x
          (y - ((sum_subtree_heights att : Nat) : Rat) / 2) level (cid + 1);
       let co := convert_json_callouts call (Nat.repr cid) x y 0 cp.2;
       ({ id := Nat.repr cid, value := some (title.getD "Topic"),
          style := some (get_style level), vertex := true, parent := some "1",
          geometry := some (.box x y box_width box_height) } :: (cp.1 ++ co.1),
        co.2, Nat.repr cid)) := rfl

theorem convert_json_children_def (c : JsonTopic) (rest : List JsonTopic)
    (pid : String) (x cy : Rat) (level cid : Nat) :
    convert_json_children (c :: rest) pid x cy level cid =
      (let h := calculate_subtree_height c;
       let p := convert_json_topic c pid (x + (x_spacing : Rat))
         (cy + (h : Rat) / 2) (level + 1) cid;
       let cn := create_connector pid p.2.2 p.2.1;
       let r := convert_json_children rest pid x (cy + (h : Rat)) level cn.2;
       (p.1 ++ cn.1 :: r.1, r.2)) := rfl

theorem convert_json_callouts_def (c : JsonTopic) (rest : List JsonTopic)
    (pid : String) (x y : Rat) (idx cid : Nat) :
    convert_json_callouts (c :: rest) pid x y idx cid =
      (let p := convert_json_callout c pid (x + (callout_offset_x : Rat))
         (y + (callout_offset_y : Rat) - ((idx * callout_spacing : Nat) : Rat)) cid;
       let r := convert_json_callouts rest pid x y (idx + 1) p.2.1;
       (p.1 ++ r.1, r.2)) := rfl

theorem create_connector_ids (s t : String) (cid : Nat) :
    IdsFrom cid (([(create_connector s t cid).1], (create_connector s t cid).2)) :=
  IdsFrom.cons rfl (IdsFrom.nil (cid + 1))

theorem convert_json_callout_ids (c : JsonTopic) (pid : String) (x y : Rat) (cid : Nat) :
    IdsFrom cid ((convert_json_callout c pid x y cid).1,
      (convert_json_callout c pid x y cid).2.1) := by
  simp only [convert_json_callout]
  exact IdsFrom.cons rfl (IdsFrom.cons rfl (IdsFrom.nil (cid + 1 + 1)))

theorem convert_json_callouts_ids (cs : List JsonTopic) :
    ∀ (pid : String) (x y : Rat) (idx cid : Nat),
      IdsFrom cid (convert_json_callouts cs pid x y idx cid) := by
  induction cs with
  | nil => intro pid x y idx cid; simp only [convert_json_callouts]; exact IdsFrom.nil cid
  | cons c rest ih =>
    intro pid x y idx cid
    simp only [convert_json_callouts]
    have h1 := convert_json_callout_ids c pid (x + (callout_offset_x : Rat))
      (y + (callout_offset_y : Rat) - ((idx * callout_spacing : Nat) : Rat)) cid
    rcases hc : convert_json_callout c pid (x + (callout_offset_x : Rat))
      (y + (callout_offset_y : Rat) - ((idx * callout_spacing : Nat) : Rat)) cid
      with ⟨cells, cid1, cidstr⟩
    rw [hc] at h1
    have h2 := ih pid x y (idx + 1) cid1
    rcases hr : convert_json_callouts rest pid x y (idx + 1) cid1 with ⟨rest_cells, cid2⟩
    rw [hr] at h2
    exact IdsFrom.append h1 h2

/-- Combined id bookkeeping for a converted JSON subtree: the block carries
consecutive ids from the incoming counter, and the returned `current_id` is
the rendering of the incoming counter. -/
def TopicIds (t : JsonTopic) : Prop :=
  ∀ (pid : String) (x y : Rat) (level cid : Nat),
    IdsFrom cid ((convert_json_topic t pid x y level cid).1,
      (convert_json_topic t pid x y level cid).2.1) ∧
    (convert_json_topic t pid x y level cid).2.2 = Nat.repr cid

theorem convert_json_children_ids (cs : List JsonTopic) (h : ∀ c ∈ cs, TopicIds c) :
    ∀ (pid : String) (x cy : Rat) (level cid : Nat),
      IdsFrom cid (convert_json_children cs pid x cy level cid) := by
  induction cs with
  | nil => intro pid x cy level cid; simp only [convert_json_children]; exact IdsFrom.nil cid
  | cons c rest ih =>
    intro pid x cy level cid
    simp only [convert_json_children]
    have h1 := h c (by simp) pid (x + (x_spacing : Rat))
      (cy + ((calculate_subtree_height c : Nat) : Rat) / 2) (level + 1) cid
    rcases hc : convert_json_topic c pid (x + (x_spacing : Rat))
      (cy + ((calculate_subtree_height c : Nat) : Rat) / 2) (level + 1) cid
      with ⟨cells, cid1, child_id⟩
    rw [hc] at h1
    obtain ⟨h1a, _⟩ := h1
    have hconn := create_connector_ids pid child_id cid1
    rcases hcn : create_connector pid child_id cid1 with ⟨conn, cid2⟩
    rw [hcn] at hconn
    have h2 := ih (fun c hc => h c (by simp [hc])) pid x
      (cy + ((calculate_subtree_height c : Nat) : Rat)) level cid2
    rcases hr : convert_json_children rest pid x
      (cy + ((calculate_subtree_height c : Nat) : Rat)) level cid2 with ⟨rest_cells, cid3⟩
    rw [hr] at h2
    exact IdsFrom.append h1a (by simpa using IdsFrom.append hconn h2)

theorem convert_json_topic_ids : ∀ t : JsonTopic, TopicIds t := by
  refine json_topic_rec_att _ ?_
  intro title att call ih pid x y level cid
  rw [convert_json_topic_def]
  refine ⟨?_, rfl⟩
  have hcp : IdsFrom (cid + 1) (if att.isEmpty then (([] : List MxCell), cid + 1)
      else convert_json_children att (Nat.repr cid) x
        (y - ((sum_subtree_heights att : Nat) : Rat) / 2) level (cid + 1)) := by
    by_cases hatt : att.isEmpty
    · simp only [if_pos hatt]; exact IdsFrom.nil (cid + 1)
    · simp only [if_neg hatt]
      exact convert_json_children_ids att ih (Nat.repr cid) x
        (y - ((sum_subtree_heights att : Nat) : Rat) / 2) level (cid + 1)
  exact IdsFrom.cons rfl (IdsFrom.append2 hcp (convert_json_callouts_ids call _ _ _ _ _))

theorem convert_xml_topic_def (title_elem : Option (Option String))
    (children : Option (List (List XmlTopic))) (pid : String) (x y : Rat)
    (level cid : Nat) :
    convert_xml_topic (.mk title_elem children) pid x y level cid =
      (let cp := match children with
        | none => (([] : List MxCell), cid + 1)
        | some containers =>
          if containers.flatten.isEmpty then (([] : List MxCell), cid + 1)
          else convert_xml_children containers.flatten (Nat.repr cid) x
            (y - ((sum_xml_subtree_heights containers.flatten : Nat) : Rat) / 2)
            level (cid + 1);
       ({ id := Nat.repr cid,
          value := some (match title_elem with
            | some (some s) => if s = "" then "Topic" else s
            | _ => "Topic"),
          style := some (get_style level), vertex := true, parent := some "1",
          geometry := some (.box x y box_width box_height) } :: cp.1,
        cp.2, Nat.repr cid)) := by
  rw [convert_xml_topic.eq_def]

theorem convert_xml_children_def (c : XmlTopic) (rest : List XmlTopic)
    (pid : String) (x cy : Rat) (level cid : Nat) :
    convert_xml_children (c :: rest) pid x cy level cid =
      (let h := calculate_xml_subtree_height c;
       let p := convert_xml_topic c pid (x + (x_spacing : Rat))
         (cy + (h : Rat) / 2) (level + 1) cid;
       let cn := create_connector pid p.2.2 p.2.1;
       let r := convert_xml_children rest pid x (cy + (h : Rat)) level cn.2;
       (p.1 ++ cn.1 :: r.1, r.2)) := by
  rw [convert_xml_children.eq_def]

theorem convert_xml_children_nil_def (pid : String) (x cy : Rat) (level cid : Nat) :
    convert_xml_children [] pid x cy level cid = ([], cid) := by
  rw [convert_xml_children.eq_def]

theorem convert_xml_topic_def_none (title_elem : Option (Option String))
    (pid : String) (x y : Rat) (level cid : Nat) :
    convert_xml_topic (.mk title_elem none) pid x y level cid =
      ([{ id := Nat.repr cid,
          value := some (match title_elem with
            | some (some s) => if s = "" then "Topic" else s
            | _ => "Topic"),
          style := some (get_style level), vertex := true, parent := some "1",
          geometry := some (.box x y box_width box_height) }],
       cid + 1, Nat.repr cid) := by
  rw [convert_xml_topic_def]

theorem convert_xml_topic_def_some (title_elem : Option (Option String))
    (containers : List (List XmlTopic)) (pid : String) (x y : Rat)
    (level cid : Nat) :
    convert_xml_topic (.mk title_elem (some containers)) pid x y level cid =
      ({ id := Nat.repr cid,
         value := some (match title_elem with
           | some (some s) => if s = "" then "Topic" else s
           | _ => "Topic"),
         style := some (get_style level), vertex := true, parent := some "1",
         geometry := some (.box x y box_width box_height) } ::
        (if containers.flatten.isEmpty then (([] : List MxCell), cid + 1)
         else convert_xml_children containers.flatten (Nat.repr cid) x
           (y - ((sum_xml_subtree_heights containers.flatten : Nat) : Rat) / 2)
           level (cid + 1)).1,
       (if containers.flatten.isEmpty then (([] : List MxCell), cid + 1)
        else convert_xml_children containers.flatten (Nat.repr cid) x
          (y - ((sum_xml_subtree_heights containers.flatten : Nat) : Rat) / 2)
          level (cid + 1)).2,
       Nat.repr cid) := by
  rw [convert_xml_topic_def]

/-- XML analogue of `TopicIds`. -/
def XmlTopicIds (t : XmlTopic) : Prop :=
  ∀ (pid : String) (x y : Rat) (level cid : Nat),
    IdsFrom cid ((convert_xml_topic t pid x y level cid).1,
      (convert_xml_topic t pid x y level cid).2.1) ∧
    (convert_xml_topic t pid x y level cid).2.2 = Nat.repr cid

theorem convert_xml_children_ids (cs : List XmlTopic) (h : ∀ c ∈ cs, XmlTopicIds c) :
    ∀ (pid : String) (x cy : Rat) (level cid : Nat),
      IdsFrom cid (convert_xml_children cs pid x cy level cid) := by
  induction cs with
  | nil => intro pid x cy level cid; simp only [convert_xml_children]; exact IdsFrom.nil cid
  | cons c rest ih =>
    intro pid x cy level cid
    simp only [convert_xml_children]
    have h1 := h c (by simp) pid (x + (x_spacing : Rat))
      (cy + ((calculate_xml_subtree_height c : Nat) : Rat) / 2) (level + 1) cid
    rcases hc : convert_xml_topic c pid (x + (x_spacing : Rat))
      (cy + ((calculate_xml_subtree_height c : Nat) : Rat) / 2) (level + 1) cid
      with ⟨cells, cid1, child_id⟩
    rw [hc] at h1
    obtain ⟨h1a, _⟩ := h1
    have hconn := create_connector_ids pid child_id cid1
    rcases hcn : create_connector pid child_id cid1 with ⟨conn, cid2⟩
    rw [hcn] at hconn
    have h2 := ih (fun c hc => h c (by simp [hc])) pid x
      (cy + ((calculate_xml_subtree_height c : Nat) : Rat)) level cid2
    rcases hr : convert_xml_children rest pid x
      (cy + ((calculate_xml_subtree_height c : Nat) : Rat)) level cid2 with ⟨rest_cells, cid3⟩
    rw [hr] at h2
    exact IdsFrom.append h1a (by simpa using IdsFrom.append hconn h2)

theorem convert_xml_topic_ids : ∀ t : XmlTopic, XmlTopicIds t := by
  refine xml_topic_rec_att _ ?_
  intro title children ih pid x y level cid
  rw [convert_xml_topic_def]
  refine ⟨?_, rfl⟩
  refine IdsFrom.cons rfl ?_
  cases children with
  | none => exact IdsFrom.nil (cid + 1)
  | some containers =>
    by_cases hemp : containers.flatten.isEmpty
    · simp only [if_pos hemp]; exact IdsFrom.nil (cid + 1)
    · simp only [if_neg hemp]
      exact convert_xml_children_ids containers.flatten
        (by simpa [xml_child_topics] using ih) (Nat.repr cid) x
        (y - ((sum_xml_subtree_heights containers.flatten : Nat) : Rat) / 2) level (cid + 1)

/-!
## Document-level id facts
-/

theorem ids_with_defaults {gen : List MxCell}
    (h : gen.map MxCell.id = (List.range' 2 gen.length).map Nat.repr) :
    ([default_cell_0, default_cell_1] ++ gen).map MxCell.id =
      (List.range' 0 (gen.length + 2)).map Nat.repr := by
  rw [List.range'_succ]
  rw [List.range'_succ]
  simp only [List.map_append, List.map_cons, List.map_nil, h, List.cons_append,
    List.nil_append, List.map_cons]
  rfl

theorem doc_ids_core (gen : List MxCell)
    (h : gen.map MxCell.id = (List.range' 2 gen.length).map Nat.repr) :
    (([default_cell_0, default_cell_1] ++ gen).map MxCell.id).Nodup ∧
    (([default_cell_0, default_cell_1] ++ gen).map MxCell.id).count "0" = 1 ∧
    (([default_cell_0, default_cell_1] ++ gen).map MxCell.id).count "1" = 1 ∧
    (∀ c ∈ [default_cell_0, default_cell_1] ++ gen, c.id = "1" → c.parent = some "0") ∧
    (∀ c ∈ gen, c.id ≠ "0" ∧ c.id ≠ "1") := by
  have hall := ids_with_defaults h
  have hgen : ∀ c ∈ gen, c.id ≠ "0" ∧ c.id ≠ "1" := by
    intro c hc
    have : c.id ∈ gen.map MxCell.id := List.mem_map_of_mem MxCell.id hc
    rw [h] at this
    obtain ⟨k, hk, hke⟩ := List.mem_map.1 this
    have hk2 : 2 ≤ k := (List.mem_range'_1.1 hk).1
    constructor
    · intro h0
      have : k = 0 := Nat_repr_injective (by rw [hke, h0]; rfl)
      omega
    · intro h1
      have : k = 1 := Nat_repr_injective (by rw [hke, h1]; rfl)
      omega
  have hnodup : (([default_cell_0, default_cell_1] ++ gen).map MxCell.id).Nodup := by
    rw [hall]
    exact (List.nodup_range' 0 (gen.length + 2)).map Nat_repr_injective
  refine ⟨hnodup, ?_, ?_, ?_, hgen⟩
  · apply List.count_eq_one_of_mem hnodup
    rw [hall]
    exact List.mem_map.2 ⟨0, List.mem_range'_1.2 (by omega), rfl⟩
  · apply List.count_eq_one_of_mem hnodup
    rw [hall]
    exact List.mem_map.2 ⟨1, List.mem_range'_1.2 (by omega), rfl⟩
  · intro c hc hid
    rcases List.mem_append.1 hc with hdef | hg
    · simp only [List.mem_cons, List.mem_singleton, List.not_mem_nil, or_false] at hdef
      rcases hdef with h0 | h1
      · rw [h0] at hid; exact absurd hid (by decide)
      · rw [h1]; rfl
    · exact absurd hid (hgen c hg).2

/-- The generated block of any converted document (the cells after the two
default cells), together with the id list it carries. -/
theorem generated_ids (rt : Option RootTopic) :
    ((create_drawio_xml rt).drop 2).map MxCell.id =
      (List.range' 2 ((create_drawio_xml rt).drop 2).length).map Nat.repr := by
  cases rt with
  | none => rfl
  | some rtt =>
    cases rtt with
    | json t =>
      have h := ((convert_json_topic_ids t) "1" 400 300 0 2).1.2
      simpa [create_drawio_xml] using h
    | xml t =>
      have h := ((convert_xml_topic_ids t) "1" 400 300 0 2).1.2
      simpa [create_drawio_xml] using h

theorem create_drawio_xml_split (rt : Option RootTopic) :
    create_drawio_xml rt =
      [default_cell_0, default_cell_1] ++ (create_drawio_xml rt).drop 2 := by
  cases rt with
  | none => rfl
  | some rtt => cases rtt with
    | json t => rfl
    | xml t => rfl

/-- **C2.**  In every converted output document the cell ids are pairwise
distinct; the ids `"0"` and `"1"` each occur exactly once (the two fixed
structural cells emitted first), the cell with id `"1"` has parent `"0"`,
and no generated cell (the cells after the two default ones) reuses `"0"`
or `"1"`. -/
theorem c2_id_uniqueness (rt : Option RootTopic) :
    ((create_drawio_xml rt).map MxCell.id).Nodup ∧
    ((create_drawio_xml rt).map MxCell.id).count "0" = 1 ∧
    ((create_drawio_xml rt).map MxCell.id).count "1" = 1 ∧
    (∀ c ∈ create_drawio_xml rt, c.id = "1" → c.parent = some "0") ∧
    (∀ c ∈ (create_drawio_xml rt).drop 2, c.id ≠ "0" ∧ c.id ≠ "1") := by
  have hcore := doc_ids_core ((create_drawio_xml rt).drop 2) (generated_ids rt)
  rw [← create_drawio_xml_split rt] at hcore
  exact hcore

/-- Witness for C2 at a concrete document (a JSON root with one child and one
callout): the id list is duplicate-free and the default layer cell `"1"` has
parent `"0"`. -/
theorem c2_id_uniqueness_witness :
    (((create_drawio_xml (some (.json (.mk (some "r")
        [.mk (some "c") [] []] [.mk (some "n") [] []])))).map MxCell.id).Nodup) ∧
    default_cell_1 ∈ create_drawio_xml (some (.json (.mk (some "r")
        [.mk (some "c") [] []] [.mk (some "n") [] []]))) ∧
    default_cell_1.parent = some "0" :=
  ⟨(c2_id_uniqueness (some (.json (.mk (some "r")
      [.mk (some "c") [] []] [.mk (some "n") [] []])))).1,
   by simp [create_drawio_xml],
   (c2_id_uniqueness (some (.json (.mk (some "r")
      [.mk (some "c") [] []] [.mk (some "n") [] []])))).2.2.2.1 default_cell_1
      (by simp [create_drawio_xml]) rfl⟩

/-!
## Subtree heights (C3)
-/

theorem sum_subtree_heights_eq (l : List JsonTopic) :
    sum_subtree_heights l = (l.map calculate_subtree_height).sum := by
  induction l with
  | nil => rfl
  | cons t ts ih => simp [sum_subtree_heights, ih]

theorem sum_xml_subtree_heights_eq (l : List XmlTopic) :
    sum_xml_subtree_heights l = (l.map calculate_xml_subtree_height).sum := by
  induction l with
  | nil => simp [sum_xml_subtree_heights]
  | cons t ts ih => simp [sum_xml_subtree_heights, ih]

/-- **C3.**  The subtree-height functions return `base = 120` plus
`count(callouts) × 70` (callouts only exist in the JSON encoding); a topic
with no attached children gets exactly this base, and otherwise the maximum
of the base and the sum of the attached children's subtree heights. -/
theorem c3_subtree_height :
    min_y_spacing = 120 ∧ callout_spacing = 70 ∧
    (∀ (title : Option String) (att call : List JsonTopic),
      calculate_subtree_height (.mk title att call) =
        if att.isEmpty then min_y_spacing + call.length * callout_spacing
        else Nat.max (min_y_spacing + call.length * callout_spacing)
          ((att.map calculate_subtree_height).sum)) ∧
    (∀ t : XmlTopic,
      calculate_xml_subtree_height t =
        if (xml_child_topics t).isEmpty then min_y_spacing
        else Nat.max min_y_spacing (((xml_child_topics t).map calculate_xml_subtree_height).sum)) := by
  refine ⟨rfl, rfl, ?_, ?_⟩
  · intro title att call
    rw [show calculate_subtree_height (.mk title att call) =
        (let base_height := min_y_spacing +
          (if call.isEmpty then 0 else call.length * callout_spacing);
         if att.isEmpty then base_height
         else Nat.max (sum_subtree_heights att) base_height) from rfl]
    have hbase : min_y_spacing + (if call.isEmpty then 0 else call.length * callout_spacing) =
        min_y_spacing + call.length * callout_spacing := by
      by_cases hc : call.isEmpty
      · simp [hc, List.isEmpty_iff.1 hc]
      · simp [hc]
    simp only [hbase]
    by_cases ha : att.isEmpty
    · simp [ha]
    · rw [if_neg ha, if_neg ha, sum_subtree_heights_eq]
      exact Nat.max_comm _ _
  · intro t
    rcases t with ⟨ti, children⟩
    cases children with
    | none => simp [calculate_xml_subtree_height, xml_child_topics]
    | some containers =>
      rw [show calculate_xml_subtree_height (.mk ti (some containers)) =
          (if containers.flatten.isEmpty then min_y_spacing
           else Nat.max (sum_xml_subtree_heights containers.flatten) min_y_spacing) from
        by rw [calculate_xml_subtree_height.eq_def]]
      simp only [xml_child_topics]
      by_cases hf : containers.flatten.isEmpty
      · simp [hf]
      · rw [if_neg hf, if_neg hf, sum_xml_subtree_heights_eq]
        exact Nat.max_comm _ _

/-!
## Displayed titles (C6)
-/

/-- **C6 (counterexample).**  A JSON topic whose `'title'` key is present but
empty is emitted with the empty display text, not with the `'Topic'`
placeholder: `topic.get('title', 'Topic')` only substitutes the default when
the key is absent. -/
theorem c6_counterexample :
    ∃ c, (convert_json_topic (.mk (some "") [] []) "1" 400 300 0 2).1 = [c] ∧
      c.value = some "" ∧ c.value ≠ some "Topic" :=
  ⟨_, rfl, rfl, by decide⟩

/-- **C6 (amended).**  The emitted vertex text is the topic's title with a
placeholder substituted only when the JSON `'title'` key is absent (a present
empty title is kept as the empty string), while the XML path substitutes the
placeholder when the `title` element is missing, has no text, or has empty
text. -/
theorem c6_title_default :
    (∀ (title : Option String) (att call : List JsonTopic) (pid : String)
      (x y : Rat) (level cid : Nat),
      ((convert_json_topic (.mk title att call) pid x y level cid).1.head?.map MxCell.value) =
        some (some (title.getD "Topic"))) ∧
    (∀ (te : Option (Option String)) (children : Option (List (List XmlTopic)))
      (pid : String) (x y : Rat) (level cid : Nat),
      ((convert_xml_topic (.mk te children) pid x y level cid).1.head?.map MxCell.value) =
        some (some (match te with
          | some (some s) => if s = "" then "Topic" else s
          | _ => "Topic"))) := by
  constructor
  · intro title att call pid x y level cid
    rw [convert_json_topic_def]
    rfl
  · intro te children pid x y level cid
    rw [convert_xml_topic_def]
    rfl

/-!
## Parse dispatch (C7)
-/

/-- **C7.**  `parse` reads `content.json` first and reports the JSON
encoding; otherwise it reads `content.xml` and reports the XML encoding;
with neither entry it fails silently (no result, no message), an outcome
distinct from every failure that prints a cause-carrying message (the
I/O/parse-failure branches). -/
theorem c7_parse_dispatch :
    (∀ (a : Archive) (p : String) (d : JsonDoc), a.io_error = none →
      a.has_json_entry = true → a.json_content = .ok d →
      parse a p = { result := some (.json d), is_json_format := true, messages := [] }) ∧
    (∀ (a : Archive) (p e : String), a.io_error = none →
      a.has_json_entry = true → a.json_content = .error e →
      parse a p = { result := none, is_json_format := true,
                    messages := [error_message p e] }) ∧
    (∀ (a : Archive) (p : String) (d : XmlDoc), a.io_error = none →
      a.has_json_entry = false → a.has_xml_entry = true → a.xml_content = .ok d →
      parse a p = { result := some (.xml d), is_json_format := false, messages := [] }) ∧
    (∀ (a : Archive) (p e : String), a.io_error = none →
      a.has_json_entry = false → a.has_xml_entry = true → a.xml_content = .error e →
      parse a p = { result := none, is_json_format := false,
                    messages := [error_message p e] }) ∧
    (∀ (a : Archive) (p : String), a.io_error = none →
      a.has_json_entry = false → a.has_xml_entry = false →
      parse a p = { result := none, is_json_format := false, messages := [] }) ∧
    (∀ (a : Archive) (p e : String), a.io_error = some e →
      parse a p = { result := none, is_json_format := false,
                    messages := [error_message p e] }) ∧
    (∀ (a b : Archive) (p q : String), a.io_error = none →
      a.has_json_entry = false → a.has_xml_entry = false →
      (parse b q).messages ≠ [] → parse a p ≠ parse b q) := by
  refine ⟨?_, ?_, ?_, ?_, ?_, ?_, ?_⟩
  · intro a p d h1 h2 h3; simp [parse, h1, h2, h3]
  · intro a p e h1 h2 h3; simp [parse, h1, h2, h3]
  · intro a p d h1 h2 h3 h4; simp [parse, h1, h2, h3, h4]
  · intro a p e h1 h2 h3 h4; simp [parse, h1, h2, h3, h4]
  · intro a p h1 h2 h3; simp [parse, h1, h2, h3]
  · intro a p e h1; simp [parse, h1]
  · intro a b p q h1 h2 h3 hmsg heq
    apply hmsg
    have ha : parse a p = { result := none, is_json_format := false, messages := [] } := by
      simp [parse, h1, h2, h3]
    rw [← heq, ha]

/-- Witness for C7: a concrete archive with only a JSON entry parses as JSON;
a concrete archive with neither entry yields the silent no-result outcome,
different from a concrete corrupt-JSON archive's outcome. -/
theorem c7_parse_dispatch_witness :
    parse { io_error := none, has_json_entry := true,
            json_content := .ok (.sheets []), has_xml_entry := false,
            xml_content := .error "x" } "f.xmind" =
      { result := some (.json (.sheets [])), is_json_format := true, messages := [] } ∧
    parse { io_error := none, has_json_entry := false,
            json_content := .error "bad", has_xml_entry := false,
            xml_content := .error "x" } "f.xmind" =
      { result := none, is_json_format := false, messages := [] } ∧
    parse { io_error := none, has_json_entry := false,
            json_content := .error "bad", has_xml_entry := false,
            xml_content := .error "x" } "f.xmind" ≠
      parse { io_error := none, has_json_entry := true,
              json_content := .error "bad", has_xml_entry := false,
              xml_content := .error "x" } "f.xmind" :=
  ⟨c7_parse_dispatch.1 _ "f.xmind" (.sheets []) rfl rfl rfl,
   c7_parse_dispatch.2.2.2.2.1 _ "f.xmind" rfl rfl rfl,
   c7_parse_dispatch.2.2.2.2.2.2 _ _ "f.xmind" "f.xmind" rfl rfl rfl
     (by rw [c7_parse_dispatch.2.1 _ "f.xmind" "bad" rfl rfl rfl]; decide)⟩

/-!
## No output on failed conversion (C9)
-/

/-- **C9.**  `convert_file` writes nothing when parsing fails or when no root
topic is found, and any document it does write is the complete
`create_drawio_xml` output for the root topic it located. -/
theorem c9_no_partial_output :
    (∀ (a : Archive) (p : String), (parse a p).result = none →
      convert_file a p = none) ∧
    (∀ (a : Archive) (p : String) (r : RawDoc), (parse a p).result = some r →
      get_root_topic r = none → convert_file a p = none) ∧
    (∀ (a : Archive) (p : String) (doc : List MxCell), convert_file a p = some doc →
      ∃ r rt, (parse a p).result = some r ∧ get_root_topic r = some rt ∧
        doc = create_drawio_xml (some rt)) := by
  refine ⟨?_, ?_, ?_⟩
  · intro a p h; simp [convert_file, h]
  · intro a p r h1 h2; simp [convert_file, h1, h2]
  · intro a p doc h
    simp only [convert_file] at h
    rcases hr : (parse a p).result with _ | r
    · rw [hr] at h; simp at h
    · rw [hr] at h
      simp only [] at h
      rcases hrt : get_root_topic r with _ | rt
      · simp [hrt] at h
      · simp [hrt] at h
        exact ⟨r, rt, rfl, hrt, h.symm⟩

/-- Witness for C9: an archive with neither payload entry produces no output
document, and a well-formed one-sheet JSON archive produces exactly the
complete converted document. -/
theorem c9_no_partial_output_witness :
    convert_file { io_error := none, has_json_entry := false,
                   json_content := .error "bad", has_xml_entry := false,
                   xml_content := .error "x" } "f.xmind" = none ∧
    convert_file { io_error := none, has_json_entry := true,
                   json_content := .ok (.sheets [some (.mk (some "r") [] [])]),
                   has_xml_entry := false, xml_content := .error "x" } "f.xmind" =
      some (create_drawio_xml (some (.json (.mk (some "r") [] [])))) :=
  ⟨c9_no_partial_output.1 _ "f.xmind" rfl, rfl⟩

/-!
## Flat containment (C10)
-/

theorem convert_json_callout_parent (c : JsonTopic) (pid : String) (x y : Rat)
    (cid : Nat) : ∀ cc ∈ (convert_json_callout c pid x y cid).1,
      cc.parent = some "1" := by
  intro cc h
  simp only [convert_json_callout, List.mem_cons, List.not_mem_nil, or_false] at h
  rcases h with h | h <;> subst h <;> rfl

theorem convert_json_callouts_parent (cs : List JsonTopic) :
    ∀ (pid : String) (x y : Rat) (idx cid : Nat),
      ∀ cc ∈ (convert_json_callouts cs pid x y idx cid).1, cc.parent = some "1" := by
  induction cs with
  | nil => intro pid x y idx cid cc h; simp [convert_json_callouts] at h
  | cons c rest ih =>
    intro pid x y idx cid cc h
    rw [convert_json_callouts_def] at h
    rcases List.mem_append.1 h with h | h
    · exact convert_json_callout_parent c pid _ _ cid cc h
    · exact ih pid x y (idx + 1) _ cc h

/-- All cells of a converted JSON subtree carry `parent="1"`. -/
def JsonParent1 (t : JsonTopic) : Prop :=
  ∀ (pid : String) (x y : Rat) (level cid : Nat),
    ∀ cc ∈ (convert_json_topic t pid x y level cid).1, cc.parent = some "1"

theorem convert_json_children_parent (cs : List JsonTopic) (h : ∀ c ∈ cs, JsonParent1 c) :
    ∀ (pid : String) (x cy : Rat) (level cid : Nat),
      ∀ cc ∈ (convert_json_children cs pid x cy level cid).1, cc.parent = some "1" := by
  induction cs with
  | nil => intro pid x cy level cid cc hm; simp [convert_json_children] at hm
  | cons c rest ih =>
    intro pid x cy level cid cc hm
    rw [convert_json_children_def] at hm
    rcases List.mem_append.1 hm with hm | hm
    · exact h c (by simp) pid _ _ (level + 1) cid cc hm
    · rcases List.mem_cons.1 hm with hm | hm
      · subst hm; rfl
      · exact ih (fun c hc => h c (by simp [hc])) pid x _ level _ cc hm

theorem convert_json_topic_parent : ∀ t : JsonTopic, JsonParent1 t := by
  refine json_topic_rec_att _ ?_
  intro title att call ih pid x y level cid cc hm
  rw [convert_json_topic_def] at hm
  rcases List.mem_cons.1 hm with hm | hm
  · subst hm; rfl
  · rcases List.mem_append.1 hm with hm | hm
    · by_cases hatt : att.isEmpty
      · rw [if_pos hatt] at hm; simp at hm
      · rw [if_neg hatt] at hm
        exact convert_json_children_parent att ih _ x _ level (cid + 1) cc hm
    · exact convert_json_callouts_parent call _ x y 0 _ cc hm

/-- All cells of a converted XML subtree carry `parent="1"`. -/
def XmlParent1 (t : XmlTopic) : Prop :=
  ∀ (pid : String) (x y : Rat) (level cid : Nat),
    ∀ cc ∈ (convert_xml_topic t pid x y level cid).1, cc.parent = some "1"

theorem convert_xml_children_parent (cs : List XmlTopic) (h : ∀ c ∈ cs, XmlParent1 c) :
    ∀ (pid : String) (x cy : Rat) (level cid : Nat),
      ∀ cc ∈ (convert_xml_children cs pid x cy level cid).1, cc.parent = some "1" := by
  induction cs with
  | nil => intro pid x cy level cid cc hm; rw [convert_xml_children_nil_def] at hm; simp at hm
  | cons c rest ih =>
    intro pid x cy level cid cc hm
    rw [convert_xml_children_def] at hm
    rcases List.mem_append.1 hm with hm | hm
    · exact h c (by simp) pid _ _ (level + 1) cid cc hm
    · rcases List.mem_cons.1 hm with hm | hm
      · subst hm; rfl
      · exact ih (fun c hc => h c (by simp [hc])) pid x _ level _ cc hm

theorem convert_xml_topic_parent : ∀ t : XmlTopic, XmlParent1 t := by
  refine xml_topic_rec_att _ ?_
  intro title children ih pid x y level cid cc hm
  cases children with
  | none =>
    rw [convert_xml_topic_def_none] at hm
    rcases List.mem_singleton.1 hm with hm
    subst hm; rfl
  | some containers =>
    rw [convert_xml_topic_def_some] at hm
    rcases List.mem_cons.1 hm with hm | hm
    · subst hm; rfl
    · by_cases hemp : containers.flatten.isEmpty
      · rw [if_pos hemp] at hm; simp at hm
      · rw [if_neg hemp] at hm
        exact convert_xml_children_parent containers.flatten
          (by simpa [xml_child_topics] using ih) _ x _ level (cid + 1) cc hm

/-- **C10.**  Every generated cell of a converted document — topic vertex,
callout vertex, structural connector or dashed connector, in either
encoding — carries the containment attribute `parent="1"`: all generated
content sits flat in the default layer, and the mind-map hierarchy lives
only in edge `source`/`target` references. -/
theorem c10_flat_containment (rt : Option RootTopic) :
    ∀ cc ∈ (create_drawio_xml rt).drop 2, cc.parent = some "1" := by
  intro cc h
  cases rt with
  | none => simp [create_drawio_xml] at h
  | some rtt =>
    cases rtt with
    | json t =>
      have hd : (create_drawio_xml (some (.json t))).drop 2 =
          (convert_json_topic t "1" 400 300 0 2).1 := rfl
      rw [hd] at h
      exact convert_json_topic_parent t "1" 400 300 0 2 cc h
    | xml t =>
      have hd : (create_drawio_xml (some (.xml t))).drop 2 =
          (convert_xml_topic t "1" 400 300 0 2).1 := rfl
      rw [hd] at h
      exact convert_xml_topic_parent t "1" 400 300 0 2 cc h

/-- Witness for C10 at a concrete document: the first generated cell of the
converted one-topic JSON document has `parent="1"`. -/
theorem c10_flat_containment_witness :
    ∃ cc, cc ∈ (create_drawio_xml (some (.json (.mk (some "r") [] [])))).drop 2 ∧
      cc.parent = some "1" :=
  ⟨_, List.mem_singleton.2 rfl,
    c10_flat_containment (some (.json (.mk (some "r") [] []))) _
      (List.mem_singleton.2 rfl)⟩

/-!
## Cell categories and per-category counts (C5, C8)

The four cell categories of the output are distinguished by the fixed style
strings the generator attaches.
-/

def is_topic_vertex (c : MxCell) : Bool := c.vertex && !(c.style == some callout_style)

def is_callout_vertex (c : MxCell) : Bool := c.vertex && (c.style == some callout_style)

def is_connector_edge (c : MxCell) : Bool := c.edge && (c.style == some connector_style)

def is_dashed_edge (c : MxCell) : Bool := c.edge && (c.style == some dashed_connector_style)

theorem get_style_ne_callout (level : Nat) :
    ((some (get_style level) : Option String) == some callout_style) = false := by
  by_cases h0 : level = 0
  · subst h0; decide
  · by_cases h1 : level = 1
    · subst h1; decide
    · simp only [get_style, if_neg h0, if_neg h1]
      decide

theorem beq_conn_dashed :
    ((some connector_style : Option String) == some dashed_connector_style) = false := by
  decide

theorem beq_dashed_conn :
    ((some dashed_connector_style : Option String) == some connector_style) = false := by
  decide

mutual

/-- Topics reachable from the root through `attached` children (root
included). -/
def topic_count : JsonTopic → Nat
  | .mk _ att _ => 1 + topic_count_list att

/-- Sum of `topic_count` over a list. -/
def topic_count_list : List JsonTopic → Nat
  | [] => 0
  | t :: ts => topic_count t + topic_count_list ts

end

mutual

/-- Total number of callouts across the attached-reachable tree. -/
def callout_count : JsonTopic → Nat
  | .mk _ att call => call.length + callout_count_list att

/-- Sum of `callout_count` over a list. -/
def callout_count_list : List JsonTopic → Nat
  | [] => 0
  | t :: ts => callout_count t + callout_count_list ts

end

mutual

/-- Number of attached parent-child edges in the tree. -/
def attached_edge_count : JsonTopic → Nat
  | .mk _ att _ => att.length + attached_edge_count_list att

/-- Sum of `attached_edge_count` over a list. -/
def attached_edge_count_list : List JsonTopic → Nat
  | [] => 0
  | t :: ts => attached_edge_count t + attached_edge_count_list ts

end

theorem create_connector_snd (s t : String) (cid : Nat) :
    (create_connector s t cid).2 = cid + 1 := rfl

theorem connector_cell_flags (s t : String) (cid : Nat) :
    is_topic_vertex (create_connector s t cid).1 = false ∧
    is_callout_vertex (create_connector s t cid).1 = false ∧
    is_connector_edge (create_connector s t cid).1 = true ∧
    is_dashed_edge (create_connector s t cid).1 = false :=
  ⟨rfl, rfl, by simp [create_connector, is_connector_edge],
   by simp [create_connector, is_dashed_edge]; decide⟩

/-- The four category counts of a converted JSON subtree equal the tree-side
counts. -/
def JsonCounts (t : JsonTopic) : Prop :=
  ∀ (pid : String) (x y : Rat) (level cid : Nat),
    (convert_json_topic t pid x y level cid).1.countP is_topic_vertex = topic_count t ∧
    (convert_json_topic t pid x y level cid).1.countP is_callout_vertex = callout_count t ∧
    (convert_json_topic t pid x y level cid).1.countP is_connector_edge = attached_edge_count t ∧
    (convert_json_topic t pid x y level cid).1.countP is_dashed_edge = callout_count t

theorem convert_json_callout_counts (c : JsonTopic) (pid : String) (x y : Rat)
    (cid : Nat) :
    (convert_json_callout c pid x y cid).1.countP is_topic_vertex = 0 ∧
    (convert_json_callout c pid x y cid).1.countP is_callout_vertex = 1 ∧
    (convert_json_callout c pid x y cid).1.countP is_connector_edge = 0 ∧
    (convert_json_callout c pid x y cid).1.countP is_dashed_edge = 1 := by
  simp only [convert_json_callout]
  refine ⟨?_, ?_, ?_, ?_⟩ <;>
    simp [List.countP_cons, is_topic_vertex, is_callout_vertex, is_connector_edge,
      is_dashed_edge] <;> decide

theorem convert_json_callouts_counts (cs : List JsonTopic) :
    ∀ (pid : String) (x y : Rat) (idx cid : Nat),
      (convert_json_callouts cs pid x y idx cid).1.countP is_topic_vertex = 0 ∧
      (convert_json_callouts cs pid x y idx cid).1.countP is_callout_vertex = cs.length ∧
      (convert_json_callouts cs pid x y idx cid).1.countP is_connector_edge = 0 ∧
      (convert_json_callouts cs pid x y idx cid).1.countP is_dashed_edge = cs.length := by
  induction cs with
  | nil => intro pid x y idx cid; simp [convert_json_callouts]
  | cons c rest ih =>
    intro pid x y idx cid
    rw [convert_json_callouts_def]
    have h1 := convert_json_callout_counts c pid (x + (callout_offset_x : Rat))
      (y + (callout_offset_y : Rat) - ((idx * callout_spacing : Nat) : Rat)) cid
    have h2 := ih pid x y (idx + 1)
      (convert_json_callout c pid (x + (callout_offset_x : Rat))
        (y + (callout_offset_y : Rat) - ((idx * callout_spacing : Nat) : Rat)) cid).2.1
    simp only [List.countP_append, List.length_cons]
    omega

theorem convert_json_children_counts (cs : List JsonTopic)
    (h : ∀ c ∈ cs, JsonCounts c) :
    ∀ (pid : String) (x cy : Rat) (level cid : Nat),
      (convert_json_children cs pid x cy level cid).1.countP is_topic_vertex
        = topic_count_list cs ∧
      (convert_json_children cs pid x cy level cid).1.countP is_callout_vertex
        = callout_count_list cs ∧
      (convert_json_children cs pid x cy level cid).1.countP is_connector_edge
        = cs.length + attached_edge_count_list cs ∧
      (convert_json_children cs pid x cy level cid).1.countP is_dashed_edge
        = callout_count_list cs := by
  induction cs with
  | nil =>
    intro pid x cy level cid
    simp [convert_json_children, topic_count_list, callout_count_list,
      attached_edge_count_list]
  | cons c rest ih =>
    intro pid x cy level cid
    rw [convert_json_children_def]
    have h1 := h c (by simp) pid (x + (x_spacing : Rat))
      (cy + ((calculate_subtree_height c : Nat) : Rat) / 2) (level + 1) cid
    have h2 := ih (fun c hc => h c (by simp [hc])) pid x
      (cy + ((calculate_subtree_height c : Nat) : Rat)) level
      ((convert_json_topic c pid (x + (x_spacing : Rat))
        (cy + ((calculate_subtree_height c : Nat) : Rat) / 2) (level + 1) cid).2.1 + 1)
    have hflags := connector_cell_flags pid
      (convert_json_topic c pid (x + (x_spacing : Rat))
        (cy + ((calculate_subtree_height c : Nat) : Rat) / 2) (level + 1) cid).2.2
      (convert_json_topic c pid (x + (x_spacing : Rat))
        (cy + ((calculate_subtree_height c : Nat) : Rat) / 2) (level + 1) cid).2.1
    simp only [List.countP_append, List.countP_cons, List.length_cons,
      topic_count_list, callout_count_list, attached_edge_count_list,
      hflags.1, hflags.2.1, hflags.2.2.1, hflags.2.2.2, create_connector_snd]
    simp
    omega

theorem get_style_ne_callout_prop (level : Nat) : ¬ get_style level = callout_style := by
  by_cases h0 : level = 0
  · subst h0; decide
  · by_cases h1 : level = 1
    · subst h1; decide
    · simp only [get_style, if_neg h0, if_neg h1]; decide

theorem topic_cell_flags (idv v : String) (level : Nat) (x y : Rat) :
    is_topic_vertex ({ id := idv, value := some v, style := some (get_style level),
                       vertex := true, parent := some "1",
                       geometry := some (.box x y box_width box_height) } : MxCell) = true ∧
    is_callout_vertex ({ id := idv, value := some v, style := some (get_style level),
                         vertex := true, parent := some "1",
                         geometry := some (.box x y box_width box_height) } : MxCell) = false ∧
    is_connector_edge ({ id := idv, value := some v, style := some (get_style level),
                         vertex := true, parent := some "1",
                         geometry := some (.box x y box_width box_height) } : MxCell) = false ∧
    is_dashed_edge ({ id := idv, value := some v, style := some (get_style level),
                      vertex := true, parent := some "1",
                      geometry := some (.box x y box_width box_height) } : MxCell) = false :=
  ⟨by simp [is_topic_vertex, get_style_ne_callout_prop],
   by simp [is_callout_vertex, get_style_ne_callout_prop],
   rfl, rfl⟩

theorem convert_json_topic_counts : ∀ t : JsonTopic, JsonCounts t := by
  refine json_topic_rec_att _ ?_
  intro title att call ih pid x y level cid
  have hflags := topic_cell_flags (Nat.repr cid) (title.getD "Topic") level x y
  rw [convert_json_topic_def]
  by_cases hatt : att.isEmpty
  · have hae : att = [] := List.isEmpty_iff.1 hatt
    subst hae
    have hco := convert_json_callouts_counts call (Nat.repr cid) x y 0 (cid + 1)
    simp only [List.isEmpty_nil, if_true, List.nil_append, List.countP_cons,
      hflags.1, hflags.2.1, hflags.2.2.1, hflags.2.2.2,
      topic_count, callout_count, attached_edge_count,
      topic_count_list, callout_count_list, attached_edge_count_list]
    simp only [hco.1, hco.2.1, hco.2.2.1, hco.2.2.2]
    simp
  · rw [if_neg hatt]
    have hch := convert_json_children_counts att ih (Nat.repr cid) x
      (y - ((sum_subtree_heights att : Nat) : Rat) / 2) level (cid + 1)
    have hco := convert_json_callouts_counts call (Nat.repr cid) x y 0
      (convert_json_children att (Nat.repr cid) x
        (y - ((sum_subtree_heights att : Nat) : Rat) / 2) level (cid + 1)).2
    simp only [List.countP_cons, List.countP_append,
      hflags.1, hflags.2.1, hflags.2.2.1, hflags.2.2.2,
      topic_count, callout_count, attached_edge_count]
    simp only [hch.1, hch.2.1, hch.2.2.1, hch.2.2.2,
      hco.1, hco.2.1, hco.2.2.1, hco.2.2.2]
    simp
    omega

mutual

/-- XML topics reachable from the root through the flattened `topics`
containers (root included). -/
def xml_topic_count : XmlTopic → Nat
  | .mk _ none => 1
  | .mk _ (some containers) => 1 + xml_topic_count_list containers.flatten
termination_by t => sizeOf t
decreasing_by
  have := sizeOf_flatten_le containers
  simp; omega

/-- Sum of `xml_topic_count` over a list. -/
def xml_topic_count_list : List XmlTopic → Nat
  | [] => 0
  | t :: ts => xml_topic_count t + xml_topic_count_list ts
termination_by ts => sizeOf ts
decreasing_by all_goals (simp <;> omega)

end

mutual

/-- Number of attached parent-child edges in an XML tree. -/
def xml_edge_count : XmlTopic → Nat
  | .mk _ none => 0
  | .mk _ (some containers) =>
    containers.flatten.length + xml_edge_count_list containers.flatten
termination_by t => sizeOf t
decreasing_by
  have := sizeOf_flatten_le containers
  simp; omega

/-- Sum of `xml_edge_count` over a list. -/
def xml_edge_count_list : List XmlTopic → Nat
  | [] => 0
  | t :: ts => xml_edge_count t + xml_edge_count_list ts
termination_by ts => sizeOf ts
decreasing_by all_goals (simp <;> omega)

end

/-- The four category counts of a converted XML subtree: one topic vertex per
topic, one connector per attached edge, and no callout or dashed cells. -/
def XmlCounts (t : XmlTopic) : Prop :=
  ∀ (pid : String) (x y : Rat) (level cid : Nat),
    (convert_xml_topic t pid x y level cid).1.countP is_topic_vertex = xml_topic_count t ∧
    (convert_xml_topic t pid x y level cid).1.countP is_callout_vertex = 0 ∧
    (convert_xml_topic t pid x y level cid).1.countP is_connector_edge = xml_edge_count t ∧
    (convert_xml_topic t pid x y level cid).1.countP is_dashed_edge = 0

theorem convert_xml_children_counts (cs : List XmlTopic)
    (h : ∀ c ∈ cs, XmlCounts c) :
    ∀ (pid : String) (x cy : Rat) (level cid : Nat),
      (convert_xml_children cs pid x cy level cid).1.countP is_topic_vertex
        = xml_topic_count_list cs ∧
      (convert_xml_children cs pid x cy level cid).1.countP is_callout_vertex = 0 ∧
      (convert_xml_children cs pid x cy level cid).1.countP is_connector_edge
        = cs.length + xml_edge_count_list cs ∧
      (convert_xml_children cs pid x cy level cid).1.countP is_dashed_edge = 0 := by
  induction cs with
  | nil =>
    intro pid x cy level cid
    rw [convert_xml_children_nil_def]
    simp [xml_topic_count_list, xml_edge_count_list]
  | cons c rest ih =>
    intro pid x cy level cid
    rw [convert_xml_children_def]
    have h1 := h c (by simp) pid (x + (x_spacing : Rat))
      (cy + ((calculate_xml_subtree_height c : Nat) : Rat) / 2) (level + 1) cid
    have h2 := ih (fun c hc => h c (by simp [hc])) pid x
      (cy + ((calculate_xml_subtree_height c : Nat) : Rat)) level
      ((convert_xml_topic c pid (x + (x_spacing : Rat))
        (cy + ((calculate_xml_subtree_height c : Nat) : Rat) / 2) (level + 1) cid).2.1 + 1)
    have hflags := connector_cell_flags pid
      (convert_xml_topic c pid (x + (x_spacing : Rat))
        (cy + ((calculate_xml_subtree_height c : Nat) : Rat) / 2) (level + 1) cid).2.2
      (convert_xml_topic c pid (x + (x_spacing : Rat))
        (cy + ((calculate_xml_subtree_height c : Nat) : Rat) / 2) (level + 1) cid).2.1
    simp only [List.countP_append, List.countP_cons, List.length_cons,
      xml_topic_count_list, xml_edge_count_list,
      hflags.1, hflags.2.1, hflags.2.2.1, hflags.2.2.2, create_connector_snd]
    simp only [h1.1, h1.2.1, h1.2.2.1, h1.2.2.2, h2.1, h2.2.1, h2.2.2.1, h2.2.2.2]
    simp
    omega

theorem xml_topic_cell_flags (idv : String) (te : Option (Option String))
    (level : Nat) (x y : Rat) :
    is_topic_vertex ({ id := idv,
                       value := some (match te with
                         | some (some s) => if s = "" then "Topic" else s
                         | _ => "Topic"),
                       style := some (get_style level),
                       vertex := true, parent := some "1",
                       geometry := some (.box x y box_width box_height) } : MxCell) = true ∧
    is_callout_vertex ({ id := idv,
                         value := some (match te with
                           | some (some s) => if s = "" then "Topic" else s
                           | _ => "Topic"),
                         style := some (get_style level),
                         vertex := true, parent := some "1",
                         geometry := some (.box x y box_width box_height) } : MxCell) = false ∧
    is_connector_edge ({ id := idv,
                         value := some (match te with
                           | some (some s) => if s = "" then "Topic" else s
                           | _ => "Topic"),
                         style := some (get_style level),
                         vertex := true, parent := some "1",
                         geometry := some (.box x y box_width box_height) } : MxCell) = false ∧
    is_dashed_edge ({ id := idv,
                      value := some (match te with
                        | some (some s) => if s = "" then "Topic" else s
                        | _ => "Topic"),
                      style := some (get_style level),
                      vertex := true, parent := some "1",
                      geometry := some (.box x y box_width box_height) } : MxCell) = false :=
  ⟨by simp [is_topic_vertex, get_style_ne_callout_prop],
   by simp [is_callout_vertex, get_style_ne_callout_prop],
   rfl, rfl⟩

theorem convert_xml_topic_counts : ∀ t : XmlTopic, XmlCounts t := by
  refine xml_topic_rec_att _ ?_
  intro title children ih pid x y level cid
  have hflags := xml_topic_cell_flags (Nat.repr cid) title level x y
  cases children with
  | none =>
    rw [convert_xml_topic_def_none]
    simp [List.countP_cons, hflags.1, hflags.2.1, hflags.2.2.1, hflags.2.2.2,
      xml_topic_count, xml_edge_count]
  | some containers =>
    rw [convert_xml_topic_def_some]
    by_cases hemp : containers.flatten.isEmpty
    · have hfe : containers.flatten = [] := List.isEmpty_iff.1 hemp
      rw [if_pos hemp]
      simp only [List.countP_cons, List.countP_nil,
        hflags.1, hflags.2.1, hflags.2.2.1, hflags.2.2.2,
        xml_topic_count, xml_edge_count, hfe,
        xml_topic_count_list, xml_edge_count_list, List.length_nil]
      simp
    · rw [if_neg hemp]
      have hch := convert_xml_children_counts containers.flatten
        (by simpa [xml_child_topics] using ih) (Nat.repr cid) x
        (y - ((sum_xml_subtree_heights containers.flatten : Nat) : Rat) / 2)
        level (cid + 1)
      simp only [List.countP_cons,
        hflags.1, hflags.2.1, hflags.2.2.1, hflags.2.2.2,
        xml_topic_count, xml_edge_count]
      simp only [hch.1, hch.2.1, hch.2.2.1, hch.2.2.2]
      simp
      omega

/-- **C5.**  Converted output contains exactly one topic vertex per topic
reachable from the root via attached children (root included), one callout
vertex per callout, one structural connector per attached parent-child pair,
and one dashed connector per callout (zero callouts ever, in the XML
encoding). -/
theorem c5_cell_counts :
    (∀ t : JsonTopic,
      (create_drawio_xml (some (.json t))).countP is_topic_vertex = topic_count t ∧
      (create_drawio_xml (some (.json t))).countP is_callout_vertex = callout_count t ∧
      (create_drawio_xml (some (.json t))).countP is_connector_edge = attached_edge_count t ∧
      (create_drawio_xml (some (.json t))).countP is_dashed_edge = callout_count t) ∧
    (∀ t : XmlTopic,
      (create_drawio_xml (some (.xml t))).countP is_topic_vertex = xml_topic_count t ∧
      (create_drawio_xml (some (.xml t))).countP is_callout_vertex = 0 ∧
      (create_drawio_xml (some (.xml t))).countP is_connector_edge = xml_edge_count t ∧
      (create_drawio_xml (some (.xml t))).countP is_dashed_edge = 0) := by
  constructor
  · intro t
    have h := convert_json_topic_counts t "1" 400 300 0 2
    simp only [create_drawio_xml, List.countP_append]
    exact ⟨by simp [h.1, List.countP_cons, default_cell_0, default_cell_1,
        is_topic_vertex],
      by simp [h.2.1, List.countP_cons, default_cell_0, default_cell_1,
        is_callout_vertex],
      by simp [h.2.2.1, List.countP_cons, default_cell_0, default_cell_1,
        is_connector_edge],
      by simp [h.2.2.2, List.countP_cons, default_cell_0, default_cell_1,
        is_dashed_edge]⟩
  · intro t
    have h := convert_xml_topic_counts t "1" 400 300 0 2
    simp only [create_drawio_xml, List.countP_append]
    exact ⟨by simp [h.1, List.countP_cons, default_cell_0, default_cell_1,
        is_topic_vertex],
      by simp [h.2.1, List.countP_cons, default_cell_0, default_cell_1,
        is_callout_vertex],
      by simp [h.2.2.1, List.countP_cons, default_cell_0, default_cell_1,
        is_connector_edge],
      by simp [h.2.2.2, List.countP_cons, default_cell_0, default_cell_1,
        is_dashed_edge]⟩

/-- **C8.**  A document converted from the XML encoding contains zero callout
vertices and zero dashed connectors: the XML walker never reads callouts (the
legacy schema has none) and never emits note cells or dashed edges. -/
theorem c8_xml_no_callouts (t : XmlTopic) :
    (create_drawio_xml (some (.xml t))).countP is_callout_vertex = 0 ∧
    (create_drawio_xml (some (.xml t))).countP is_dashed_edge = 0 := by
  have h := convert_xml_topic_counts t "1" 400 300 0 2
  simp only [create_drawio_xml, List.countP_append]
  constructor
  · simp [h.2.1, List.countP_cons, default_cell_0, default_cell_1, is_callout_vertex]
  · simp [h.2.2.2, List.countP_cons, default_cell_0, default_cell_1, is_dashed_edge]

/-!
## Id assignment order (C1)

The id-relevant signature of a cell: everything except its display text and
geometry.  `amended_sigs` is written from the amended claim's words: a
topic's vertex id, then for each attached child in order the ids of the
child's subtree followed by the id of the connector linking the topic to
that child, then for each callout the callout vertex id followed by its
dashed-connector id — all from one counter.
-/

def cell_sig (c : MxCell) :
    String × Bool × Bool × Option String × Option String × Option String :=
  (c.id, c.vertex, c.edge, c.source, c.target, c.style)

/-- The callout pairs of the amended claim: note vertex id, then dashed
connector id (source the owning topic's vertex id, target the note's id). -/
def amended_callout_sigs (ts : List JsonTopic) (pid cid : Nat) :
    List (String × Bool × Bool × Option String × Option String × Option String) × Nat :=
  match ts with
  | [] => ([], cid)
  | _ :: rest =>
    let note_sig := (Nat.repr cid, true, false, (none : Option String),
      (none : Option String), some callout_style)
    let conn_sig := (Nat.repr (cid + 1), false, true, some (Nat.repr pid),
      some (Nat.repr cid), some dashed_connector_style)
    let rest_part := amended_callout_sigs rest pid (cid + 2)
    (note_sig :: conn_sig :: rest_part.1, rest_part.2)

mutual

/-- Amended-claim id order for one topic subtree at `level` with counter
`cid`. -/
def amended_sigs (t : JsonTopic) (level cid : Nat) :
    List (String × Bool × Bool × Option String × Option String × Option String) × Nat :=
  match t with
  | .mk _ att call =>
    let vertex_sig := (Nat.repr cid, true, false, (none : Option String),
      (none : Option String), some (get_style level))
    let child_part := amended_child_sigs att cid (level + 1) (cid + 1)
    let callout_part := amended_callout_sigs call cid child_part.2
    (vertex_sig :: (child_part.1 ++ callout_part.1), callout_part.2)

/-- Amended-claim id order for the child blocks: each child's subtree ids,
then the connector (source the parent's vertex id, target the child's). -/
def amended_child_sigs (ts : List JsonTopic) (pid level cid : Nat) :
    List (String × Bool × Bool × Option String × Option String × Option String) × Nat :=
  match ts with
  | [] => ([], cid)
  | c :: rest =>
    let sub := amended_sigs c level cid
    let conn_sig := (Nat.repr sub.2, false, true, some (Nat.repr pid),
      some (Nat.repr cid), some connector_style)
    let rest_part := amended_child_sigs rest pid level (sub.2 + 1)
    (sub.1 ++ conn_sig :: rest_part.1, rest_part.2)

end

/-- The converter realizes the amended id order. -/
def JsonSigs (t : JsonTopic) : Prop :=
  ∀ (pid : String) (x y : Rat) (level cid : Nat),
    (convert_json_topic t pid x y level cid).1.map cell_sig =
      (amended_sigs t level cid).1 ∧
    (convert_json_topic t pid x y level cid).2.1 = (amended_sigs t level cid).2

theorem convert_json_callouts_sigs (cs : List JsonTopic) :
    ∀ (pidN : Nat) (x y : Rat) (idx cid : Nat),
      (convert_json_callouts cs (Nat.repr pidN) x y idx cid).1.map cell_sig =
        (amended_callout_sigs cs pidN cid).1 ∧
      (convert_json_callouts cs (Nat.repr pidN) x y idx cid).2 =
        (amended_callout_sigs cs pidN cid).2 := by
  induction cs with
  | nil =>
    intro pidN x y idx cid
    simp [convert_json_callouts, amended_callout_sigs]
  | cons c rest ih =>
    intro pidN x y idx cid
    rw [convert_json_callouts_def]
    have hr := ih pidN x y (idx + 1) (cid + 2)
    simp only [amended_callout_sigs]
    constructor
    · simp only [List.map_append, convert_json_callout, List.map_cons, List.map_nil]
      rw [hr.1]
      rfl
    · exact hr.2

theorem convert_json_children_sigs (cs : List JsonTopic) (h : ∀ c ∈ cs, JsonSigs c) :
    ∀ (pidN : Nat) (x cy : Rat) (level cid : Nat),
      (convert_json_children cs (Nat.repr pidN) x cy level cid).1.map cell_sig =
        (amended_child_sigs cs pidN (level + 1) cid).1 ∧
      (convert_json_children cs (Nat.repr pidN) x cy level cid).2 =
        (amended_child_sigs cs pidN (level + 1) cid).2 := by
  induction cs with
  | nil =>
    intro pidN x cy level cid
    simp [convert_json_children, amended_child_sigs]
  | cons c rest ih =>
    intro pidN x cy level cid
    rw [convert_json_children_def]
    have hc := h c (by simp) (Nat.repr pidN) (x + (x_spacing : Rat))
      (cy + ((calculate_subtree_height c : Nat) : Rat) / 2) (level + 1) cid
    have hcid := ((convert_json_topic_ids c) (Nat.repr pidN) (x + (x_spacing : Rat))
      (cy + ((calculate_subtree_height c : Nat) : Rat) / 2) (level + 1) cid).2
    have hr := ih (fun c hcm => h c (by simp [hcm])) pidN x
      (cy + ((calculate_subtree_height c : Nat) : Rat)) level
      ((amended_sigs c (level + 1) cid).2 + 1)
    simp only [amended_child_sigs]
    constructor
    · rw [List.map_append, List.map_cons, hc.1, create_connector_snd]
      simp only [cell_sig, create_connector]
      rw [hcid, hc.2, hr.1]
    · rw [create_connector_snd, hc.2]
      exact hr.2

theorem convert_json_topic_sigs : ∀ t : JsonTopic, JsonSigs t := by
  refine json_topic_rec_att _ ?_
  intro title att call ih pid x y level cid
  rw [convert_json_topic_def]
  simp only [amended_sigs]
  have hcp : ((if att.isEmpty then (([] : List MxCell), cid + 1)
      else convert_json_children att (Nat.repr cid) x
        (y - ((sum_subtree_heights att : Nat) : Rat) / 2) level (cid + 1)).1.map cell_sig =
      (amended_child_sigs att cid (level + 1) (cid + 1)).1) ∧
      ((if att.isEmpty then (([] : List MxCell), cid + 1)
      else convert_json_children att (Nat.repr cid) x
        (y - ((sum_subtree_heights att : Nat) : Rat) / 2) level (cid + 1)).2 =
      (amended_child_sigs att cid (level + 1) (cid + 1)).2) := by
    by_cases hatt : att.isEmpty
    · have hae : att = [] := List.isEmpty_iff.1 hatt
      subst hae
      simp [amended_child_sigs]
    · rw [if_neg hatt]
      exact convert_json_children_sigs att ih cid x
        (y - ((sum_subtree_heights att : Nat) : Rat) / 2) level (cid + 1)
  have hco := convert_json_callouts_sigs call cid x y 0
    (if att.isEmpty then (([] : List MxCell), cid + 1)
     else convert_json_children att (Nat.repr cid) x
       (y - ((sum_subtree_heights att : Nat) : Rat) / 2) level (cid + 1)).2
  constructor
  · simp only [List.map_cons, List.map_append]
    rw [hcp.1, hco.1, hcp.2]
    rfl
  · rw [hco.2, hcp.2]

/-- **C1 (counterexample).**  For the JSON tree `root["r"]` with one attached
child `"c"` and one callout `"n"`, the claimed order (topic vertex, then
parent connector, then callout pairs, then children) would give the callout
vertex id `"3"`; the code processes children first and emits each child
connector only after the child's whole subtree, so the callout vertex gets
id `"5"` while the cell with id `"3"` is the child topic's vertex. -/
theorem c1_counterexample :
    (∀ c ∈ (convert_json_topic (.mk (some "r") [.mk (some "c") [] []]
        [.mk (some "n") [] []]) "1" 400 300 0 2).1,
      is_callout_vertex c = true → c.id = "5" ∧ c.id ≠ "3") ∧
    (∃ c ∈ (convert_json_topic (.mk (some "r") [.mk (some "c") [] []]
        [.mk (some "n") [] []]) "1" 400 300 0 2).1,
      is_callout_vertex c = true) ∧
    (∃ c ∈ (convert_json_topic (.mk (some "r") [.mk (some "c") [] []]
        [.mk (some "n") [] []]) "1" 400 300 0 2).1,
      c.id = "3" ∧ c.vertex = true ∧ c.value = some "c" ∧
      c.style = some (get_style 1)) := by
  refine ⟨?_, ?_, ?_⟩ <;> (set_option maxRecDepth 4000 in decide)

/-- **C1 (amended).**  Generated ids are one monotonically increasing integer
counter starting at 2, assigned in the exact depth-first emission order:
a topic's vertex id, then for each attached child in order the ids of that
child's subtree followed by the id of the connector linking the topic to the
child, then for each callout the callout vertex id followed by its
dashed-connector id. -/
theorem c1_amended_id_order :
    (∀ (t : JsonTopic) (pid : String) (x y : Rat) (level cid : Nat),
      (convert_json_topic t pid x y level cid).1.map cell_sig =
        (amended_sigs t level cid).1 ∧
      (convert_json_topic t pid x y level cid).2.1 = (amended_sigs t level cid).2) ∧
    (∀ rt : Option RootTopic,
      ((create_drawio_xml rt).drop 2).map MxCell.id =
        (List.range' 2 ((create_drawio_xml rt).drop 2).length).map Nat.repr) :=
  ⟨fun t => convert_json_topic_sigs t, generated_ids⟩

/-!
## Placement of children and callouts (C4)
-/

theorem convert_json_topic_head (t : JsonTopic) (pid : String) (x y : Rat)
    (level cid : Nat) :
    ∃ tail, (convert_json_topic t pid x y level cid).1 =
      { id := Nat.repr cid, value := some (t.title.getD "Topic"),
        style := some (get_style level), vertex := true, parent := some "1",
        geometry := some (.box x y box_width box_height) } :: tail := by
  cases t with
  | mk ti att call =>
    rw [convert_json_topic_def]
    exact ⟨_, rfl⟩

/-- The vertex of the `i`-th child of a children run is emitted with the
counter value reached after the first `i` child blocks, at
`(x + 250, cursor_i + height_i / 2)` where `cursor_i` is the incoming cursor
advanced by the heights of the first `i` children. -/
theorem convert_json_children_child_placed (cs : List JsonTopic) :
    ∀ (pid : String) (x cy : Rat) (level cid : Nat) (i : Nat) (hi : i < cs.length),
      ∃ c ∈ (convert_json_children cs pid x cy level cid).1,
        c.id = Nat.repr ((convert_json_children (cs.take i) pid x cy level cid).2) ∧
        c.vertex = true ∧
        c.style = some (get_style (level + 1)) ∧
        c.value = some ((cs.get ⟨i, hi⟩).title.getD "Topic") ∧
        c.geometry = some (.box (x + (x_spacing : Rat))
          (cy + ((sum_subtree_heights (cs.take i) : Nat) : Rat) +
            ((calculate_subtree_height (cs.get ⟨i, hi⟩) : Nat) : Rat) / 2)
          box_width box_height) := by
  induction cs with
  | nil => intro pid x cy level cid i hi; simp at hi
  | cons c rest ih =>
    intro pid x cy level cid i hi
    cases i with
    | zero =>
      obtain ⟨tail, htail⟩ := convert_json_topic_head c pid (x + (x_spacing : Rat))
        (cy + ((calculate_subtree_height c : Nat) : Rat) / 2) (level + 1) cid
      refine ⟨{ id := Nat.repr cid, value := some (c.title.getD "Topic"),
                style := some (get_style (level + 1)), vertex := true,
                parent := some "1",
                geometry := some (.box (x + (x_spacing : Rat))
                  (cy + ((calculate_subtree_height c : Nat) : Rat) / 2)
                  box_width box_height) }, ?_, rfl, rfl, rfl, rfl, ?_⟩
      · rw [convert_json_children_def]
        apply List.mem_append_left
        rw [htail]
        exact List.mem_cons_self _ _
      · have hq : cy + ((calculate_subtree_height c : Nat) : Rat) / 2 =
            cy + ((sum_subtree_heights ((c :: rest).take 0) : Nat) : Rat) +
              ((calculate_subtree_height ((c :: rest).get ⟨0, hi⟩) : Nat) : Rat) / 2 := by
          show cy + ((calculate_subtree_height c : Nat) : Rat) / 2 =
            cy + ((0 : Nat) : Rat) + ((calculate_subtree_height c : Nat) : Rat) / 2
          push_cast
          ring
        rw [← hq]
    | succ j =>
      have hj : j < rest.length := by simpa using hi
      obtain ⟨cc, hmem, hid, hv, hs, hval, hgeo⟩ := ih pid x
        (cy + ((calculate_subtree_height c : Nat) : Rat)) level
        ((convert_json_topic c pid (x + (x_spacing : Rat))
          (cy + ((calculate_subtree_height c : Nat) : Rat) / 2) (level + 1) cid).2.1 + 1)
        j hj
      refine ⟨cc, ?_, ?_, hv, hs, ?_, ?_⟩
      · rw [convert_json_children_def]
        apply List.mem_append_right
        exact List.mem_cons_of_mem _ hmem
      · exact hid
      · exact hval
      · rw [hgeo]
        have ht : sum_subtree_heights ((c :: rest).take (j + 1)) =
            calculate_subtree_height c + sum_subtree_heights (rest.take j) := rfl
        have hq : cy + ((calculate_subtree_height c : Nat) : Rat) +
            ((sum_subtree_heights (rest.take j) : Nat) : Rat) =
            cy + ((sum_subtree_heights ((c :: rest).take (j + 1)) : Nat) : Rat) := by
          rw [ht]; push_cast; ring
        rw [show ((c :: rest).get ⟨j + 1, hi⟩) = rest.get ⟨j, hj⟩ from rfl, ← hq]

/-- The `j`-th callout of a callout run is emitted with counter `cid + 2·j`,
at offset `(callout_offset_x, callout_offset_y − (idx+j)·callout_spacing)`
from the owning topic. -/
theorem convert_json_callouts_callout_placed (cs : List JsonTopic) :
    ∀ (pid : String) (x y : Rat) (idx cid : Nat) (j : Nat) (hj : j < cs.length),
      ∃ c ∈ (convert_json_callouts cs pid x y idx cid).1,
        c.id = Nat.repr (cid + 2 * j) ∧
        c.vertex = true ∧
        c.style = some callout_style ∧
        c.value = some ((cs.get ⟨j, hj⟩).title.getD "") ∧
        c.geometry = some (.box (x + (callout_offset_x : Rat))
          (y + (callout_offset_y : Rat) - (((idx + j) * callout_spacing : Nat) : Rat))
          callout_width callout_height) := by
  induction cs with
  | nil => intro pid x y idx cid j hj; simp at hj
  | cons c rest ih =>
    intro pid x y idx cid j hj
    cases j with
    | zero =>
      refine ⟨{ id := Nat.repr cid, value := some (c.title.getD ""),
                style := some callout_style, vertex := true, parent := some "1",
                geometry := some (.box (x + (callout_offset_x : Rat))
                  (y + (callout_offset_y : Rat) - ((idx * callout_spacing : Nat) : Rat))
                  callout_width callout_height) }, ?_, rfl, rfl, rfl, rfl, rfl⟩
      rw [convert_json_callouts_def]
      apply List.mem_append_left
      show _ ∈ (convert_json_callout c pid _ _ cid).1
      simp [convert_json_callout]
    | succ k =>
      have hk : k < rest.length := by simpa using hj
      obtain ⟨cc, hmem, hid, hv, hs, hval, hgeo⟩ := ih pid x y (idx + 1) (cid + 2) k hk
      have harg : idx + 1 + k = idx + (k + 1) := by omega
      have hcarg : cid + 2 + 2 * k = cid + 2 * (k + 1) := by omega
      rw [harg] at hgeo
      rw [hcarg] at hid
      refine ⟨cc, ?_, hid, hv, hs, hval, hgeo⟩
      rw [convert_json_callouts_def]
      apply List.mem_append_right
      exact hmem

def XmlTopic.title_elem : XmlTopic → Option (Option String)
  | .mk te _ => te

theorem convert_xml_topic_head (t : XmlTopic) (pid : String) (x y : Rat)
    (level cid : Nat) :
    ∃ tail, (convert_xml_topic t pid x y level cid).1 =
      { id := Nat.repr cid,
        value := some (match t.title_elem with
          | some (some s) => if s = "" then "Topic" else s
          | _ => "Topic"),
        style := some (get_style level), vertex := true, parent := some "1",
        geometry := some (.box x y box_width box_height) } :: tail := by
  cases t with
  | mk te children =>
    cases children with
    | none => rw [convert_xml_topic_def_none]; exact ⟨_, rfl⟩
    | some containers => rw [convert_xml_topic_def_some]; exact ⟨_, rfl⟩

theorem convert_xml_children_snd_cons (c : XmlTopic) (L : List XmlTopic)
    (pid : String) (x cy : Rat) (level cid : Nat) :
    (convert_xml_children (c :: L) pid x cy level cid).2 =
      (convert_xml_children L pid x
        (cy + ((calculate_xml_subtree_height c : Nat) : Rat)) level
        ((convert_xml_topic c pid (x + (x_spacing : Rat))
          (cy + ((calculate_xml_subtree_height c : Nat) : Rat) / 2)
          (level + 1) cid).2.1 + 1)).2 := by
  rw [convert_xml_children_def]
  rfl

/-- XML analogue of `convert_json_children_child_placed`. -/
theorem convert_xml_children_child_placed (cs : List XmlTopic) :
    ∀ (pid : String) (x cy : Rat) (level cid : Nat) (i : Nat) (hi : i < cs.length),
      ∃ c ∈ (convert_xml_children cs pid x cy level cid).1,
        c.id = Nat.repr ((convert_xml_children (cs.take i) pid x cy level cid).2) ∧
        c.vertex = true ∧
        c.style = some (get_style (level + 1)) ∧
        c.value = some (match (cs.get ⟨i, hi⟩).title_elem with
          | some (some s) => if s = "" then "Topic" else s
          | _ => "Topic") ∧
        c.geometry = some (.box (x + (x_spacing : Rat))
          (cy + ((sum_xml_subtree_heights (cs.take i) : Nat) : Rat) +
            ((calculate_xml_subtree_height (cs.get ⟨i, hi⟩) : Nat) : Rat) / 2)
          box_width box_height) := by
  induction cs with
  | nil => intro pid x cy level cid i hi; simp at hi
  | cons c rest ih =>
    intro pid x cy level cid i hi
    cases i with
    | zero =>
      obtain ⟨tail, htail⟩ := convert_xml_topic_head c pid (x + (x_spacing : Rat))
        (cy + ((calculate_xml_subtree_height c : Nat) : Rat) / 2) (level + 1) cid
      refine ⟨{ id := Nat.repr cid,
                value := some (match c.title_elem with
                  | some (some s) => if s = "" then "Topic" else s
                  | _ => "Topic"),
                style := some (get_style (level + 1)), vertex := true,
                parent := some "1",
                geometry := some (.box (x + (x_spacing : Rat))
                  (cy + ((calculate_xml_subtree_height c : Nat) : Rat) / 2)
                  box_width box_height) }, ?_, ?_, rfl, rfl, rfl, ?_⟩
      · rw [convert_xml_children_def]
        apply List.mem_append_left
        rw [htail]
        exact List.mem_cons_self _ _
      · rw [show (c :: rest).take 0 = [] from rfl, convert_xml_children_nil_def]
      · have hq : cy + ((calculate_xml_subtree_height c : Nat) : Rat) / 2 =
            cy + ((sum_xml_subtree_heights ((c :: rest).take 0) : Nat) : Rat) +
              ((calculate_xml_subtree_height ((c :: rest).get ⟨0, hi⟩) : Nat) : Rat) / 2 := by
          rw [show ((c :: rest).get ⟨0, hi⟩) = c from rfl,
            show (c :: rest).take 0 = [] from rfl,
            show sum_xml_subtree_heights [] = 0 from by
              rw [sum_xml_subtree_heights.eq_def]]
          push_cast
          ring
        rw [← hq]
    | succ j =>
      have hj : j < rest.length := by simpa using hi
      obtain ⟨cc, hmem, hid, hv, hs, hval, hgeo⟩ := ih pid x
        (cy + ((calculate_xml_subtree_height c : Nat) : Rat)) level
        ((convert_xml_topic c pid (x + (x_spacing : Rat))
          (cy + ((calculate_xml_subtree_height c : Nat) : Rat) / 2) (level + 1) cid).2.1 + 1)
        j hj
      refine ⟨cc, ?_, ?_, hv, hs, hval, ?_⟩
      · rw [convert_xml_children_def]
        apply List.mem_append_right
        exact List.mem_cons_of_mem _ hmem
      · rw [show (c :: rest).take (j + 1) = c :: rest.take j from rfl,
          convert_xml_children_snd_cons]
        exact hid
      · rw [hgeo]
        have ht : sum_xml_subtree_heights ((c :: rest).take (j + 1)) =
            calculate_xml_subtree_height c + sum_xml_subtree_heights (rest.take j) := by
          rw [show (c :: rest).take (j + 1) = c :: rest.take j from rfl,
            sum_xml_subtree_heights.eq_def]
        have hq : cy + ((calculate_xml_subtree_height c : Nat) : Rat) +
            ((sum_xml_subtree_heights (rest.take j) : Nat) : Rat) =
            cy + ((sum_xml_subtree_heights ((c :: rest).take (j + 1)) : Nat) : Rat) := by
          rw [ht]; push_cast; ring
        rw [show ((c :: rest).get ⟨j + 1, hi⟩) = rest.get ⟨j, hj⟩ from rfl, ← hq]

/-- **C4.**  Children of a topic placed at `(x, y)` are laid out with a
cursor starting at `y` minus half the total child height: child `i` is
converted at `(x + 250, cursor + heights(take i) + height_i / 2)`; callout
`j` is placed at `(x − 50, y − 80 − j·70)`, in both cases with the counter
value the emission order dictates.  The XML walker places its children the
same way. -/
theorem c4_child_callout_positions :
    (∀ (title : Option String) (att call : List JsonTopic) (pid : String)
      (x y : Rat) (level cid : Nat) (i : Nat) (hi : i < att.length),
      ∃ c ∈ (convert_json_topic (.mk title att call) pid x y level cid).1,
        c.id = Nat.repr ((convert_json_children (att.take i) (Nat.repr cid) x
          (y - ((sum_subtree_heights att : Nat) : Rat) / 2) level (cid + 1)).2) ∧
        c.vertex = true ∧
        c.style = some (get_style (level + 1)) ∧
        c.value = some ((att.get ⟨i, hi⟩).title.getD "Topic") ∧
        c.geometry = some (.box (x + (x_spacing : Rat))
          (y - ((sum_subtree_heights att : Nat) : Rat) / 2 +
            ((sum_subtree_heights (att.take i) : Nat) : Rat) +
            ((calculate_subtree_height (att.get ⟨i, hi⟩) : Nat) : Rat) / 2)
          box_width box_height)) ∧
    (∀ (title : Option String) (att call : List JsonTopic) (pid : String)
      (x y : Rat) (level cid : Nat) (j : Nat) (hj : j < call.length),
      ∃ c ∈ (convert_json_topic (.mk title att call) pid x y level cid).1,
        c.id = Nat.repr ((if att.isEmpty then (([] : List MxCell), cid + 1)
          else convert_json_children att (Nat.repr cid) x
            (y - ((sum_subtree_heights att : Nat) : Rat) / 2) level (cid + 1)).2
          + 2 * j) ∧
        c.vertex = true ∧
        c.style = some callout_style ∧
        c.value = some ((call.get ⟨j, hj⟩).title.getD "") ∧
        c.geometry = some (.box (x - 50)
          (y - 80 - ((j * callout_spacing : Nat) : Rat))
          callout_width callout_height)) ∧
    (∀ (te : Option (Option String)) (containers : List (List XmlTopic))
      (pid : String) (x y : Rat) (level cid : Nat) (i : Nat)
      (hi : i < containers.flatten.length),
      ∃ c ∈ (convert_xml_topic (.mk te (some containers)) pid x y level cid).1,
        c.id = Nat.repr ((convert_xml_children (containers.flatten.take i)
          (Nat.repr cid) x
          (y - ((sum_xml_subtree_heights containers.flatten : Nat) : Rat) / 2)
          level (cid + 1)).2) ∧
        c.vertex = true ∧
        c.style = some (get_style (level + 1)) ∧
        c.geometry = some (.box (x + (x_spacing : Rat))
          (y - ((sum_xml_subtree_heights containers.flatten : Nat) : Rat) / 2 +
            ((sum_xml_subtree_heights (containers.flatten.take i) : Nat) : Rat) +
            ((calculate_xml_subtree_height (containers.flatten.get ⟨i, hi⟩) : Nat) : Rat) / 2)
          box_width box_height)) := by
  refine ⟨?_, ?_, ?_⟩
  · intro title att call pid x y level cid i hi
    have hne : ¬ att.isEmpty = true := by
      cases att with
      | nil => simp at hi
      | cons _ _ => simp
    obtain ⟨c, hmem, hid, hv, hs, hval, hgeo⟩ :=
      convert_json_children_child_placed att (Nat.repr cid) x
        (y - ((sum_subtree_heights att : Nat) : Rat) / 2) level (cid + 1) i hi
    refine ⟨c, ?_, hid, hv, hs, hval, hgeo⟩
    rw [convert_json_topic_def]
    apply List.mem_cons_of_mem
    apply List.mem_append_left
    rw [if_neg hne]
    exact hmem
  · intro title att call pid x y level cid j hj
    obtain ⟨c, hmem, hid, hv, hs, hval, hgeo⟩ :=
      convert_json_callouts_callout_placed call (Nat.repr cid) x y 0
        (if att.isEmpty then (([] : List MxCell), cid + 1)
         else convert_json_children att (Nat.repr cid) x
           (y - ((sum_subtree_heights att : Nat) : Rat) / 2) level (cid + 1)).2 j hj
    have hx : x + ((callout_offset_x : Int) : Rat) = x - 50 := by
      rw [callout_offset_x]; push_cast; ring
    have hy : y + ((callout_offset_y : Int) : Rat) -
        (((0 + j) * callout_spacing : Nat) : Rat) =
        y - 80 - ((j * callout_spacing : Nat) : Rat) := by
      rw [callout_offset_y, Nat.zero_add]; push_cast; ring
    rw [hx, hy] at hgeo
    refine ⟨c, ?_, hid, hv, hs, hval, hgeo⟩
    rw [convert_json_topic_def]
    apply List.mem_cons_of_mem
    apply List.mem_append_right
    exact hmem
  · intro te containers pid x y level cid i hi
    have hne : ¬ containers.flatten.isEmpty = true := by
      intro hh
      rw [List.isEmpty_iff.1 hh] at hi
      simp at hi
    obtain ⟨c, hmem, hid, hv, hs, _hval, hgeo⟩ :=
      convert_xml_children_child_placed containers.flatten (Nat.repr cid) x
        (y - ((sum_xml_subtree_heights containers.flatten : Nat) : Rat) / 2)
        level (cid + 1) i hi
    refine ⟨c, ?_, hid, hv, hs, hgeo⟩
    rw [convert_xml_topic_def_some]
    apply List.mem_cons_of_mem
    rw [if_neg hne]
    exact hmem

/-- Witness for C4 at a concrete tree (root with one child and one callout,
converted at the root anchor): the child's and the callout's vertex cells sit
in the output at the claimed positions. -/
theorem c4_child_callout_positions_witness :
    (∃ c ∈ (convert_json_topic (.mk (some "r") [.mk (some "c") [] []]
        [.mk (some "n") [] []]) "1" 400 300 0 2).1,
      c.id = Nat.repr ((convert_json_children (([.mk (some "c") [] []] :
          List JsonTopic).take 0) (Nat.repr 2) 400
        (300 - ((sum_subtree_heights [.mk (some "c") [] []] : Nat) : Rat) / 2) 0
        (2 + 1)).2) ∧
      c.vertex = true ∧
      c.style = some (get_style (0 + 1)) ∧
      c.value = some ((([.mk (some "c") [] []] : List JsonTopic).get
        ⟨0, by decide⟩).title.getD "Topic") ∧
      c.geometry = some (.box (400 + (x_spacing : Rat))
        (300 - ((sum_subtree_heights [.mk (some "c") [] []] : Nat) : Rat) / 2 +
          ((sum_subtree_heights (([.mk (some "c") [] []] :
            List JsonTopic).take 0) : Nat) : Rat) +
          ((calculate_subtree_height (([.mk (some "c") [] []] :
            List JsonTopic).get ⟨0, by decide⟩) : Nat) : Rat) / 2)
        box_width box_height)) ∧
    (∃ c ∈ (convert_json_topic (.mk (some "r") [.mk (some "c") [] []]
        [.mk (some "n") [] []]) "1" 400 300 0 2).1,
      c.vertex = true ∧
      c.style = some callout_style ∧
      c.value = some ((([.mk (some "n") [] []] : List JsonTopic).get
        ⟨0, by decide⟩).title.getD "") ∧
      c.geometry = some (.box ((400 : Rat) - 50)
        (300 - ((0 * callout_spacing : Nat) : Rat) - 80)
        callout_width callout_height)) := by
  constructor
  · exact c4_child_callout_positions.1 (some "r") [.mk (some "c") [] []]
      [.mk (some "n") [] []] "1" 400 300 0 2 0 (by decide)
  · obtain ⟨c, hmem, _hid, hv, hs, hval, hgeo⟩ :=
      c4_child_callout_positions.2.1 (some "r") [.mk (some "c") [] []]
        [.mk (some "n") [] []] "1" 400 300 0 2 0 (by decide)
    refine ⟨c, hmem, hv, hs, hval, ?_⟩
    rw [hgeo]
    congr 2
    ring

end XmindToDrawio
